import Mathlib

/-!
# Fluid-dynamics solvers and resource-usage policy

A shallow embedding of `prog/gameLibs/render/fluidDynamics/solver.cpp`
(`cfd::Solver`, `cfd::CascadeSolver`) and of the inline overload of
`prog/gameLibs/render/daBfg/resourceUsage.h`.

Conventions of the embedding:

* a member function `T::f(args)` becomes `T.f (self : T) (e : Env) args`
  and returns the new object together with the new environment;
* the environment `Env` holds the file-scope `static int ...VarId`
  variables and the stream of `ShaderGlobal` writes and shader
  dispatches issued so far (oldest first);
* undefined behaviour of the C++ code (an index outside an array, a signed
  addition leaving the range of `int`) is a `Fault`;
* `float` values are kept symbolic (`F32`): a value is the tree of the
  operations that produced it, so no law of real arithmetic is assumed;
* `TIME_D3D_PROFILE` markers are profiling only and are not modelled.
-/

namespace cfd

/-! ## Machine integers and faults -/

/-- Undefined behaviour the C++ code can run into. -/
inductive Fault where
  | indexOutOfBounds (i : Int)
  | signedOverflow
  deriving DecidableEq, Repr

/-- Smallest value of the 32-bit `int`. -/
def INT_MIN : Int := -2147483648

/-- Largest value of the 32-bit `int`. -/
def INT_MAX : Int := 2147483647

/-- Addition of two `int`s; leaving the range of `int` is undefined. -/
def addInt (a b : Int) : Except Fault Int :=
  if INT_MIN ≤ a + b ∧ a + b ≤ INT_MAX then .ok (a + b) else .error .signedOverflow

/-- Conversion `int → uint32_t` (what the usual arithmetic conversions do to
the `int` operand of a mixed `int`/`uint32_t` comparison). -/
def toU32 (x : Int) : Nat := (x % 4294967296).toNat

/-- Conversion `uint32_t → int` (two's complement). -/
def toI32 (n : Nat) : Int :=
  if n % 4294967296 < 2147483648 then ((n % 4294967296 : Nat) : Int)
  else ((n % 4294967296 : Nat) : Int) - 4294967296

/-! ## Symbolic floats -/

/-- A `float` value, kept as the expression that computes it. -/
inductive F32 where
  /-- A literal of the source, `mantissa * 10 ^ (-decimals)`: `1.5f` is `lit 15 1`. -/
  | lit (mantissa : Nat) (decimals : Nat)
  /-- Conversion of an `int` to `float`. -/
  | ofInt (i : Int)
  | add (a b : F32)
  | mul (a b : F32)
  deriving DecidableEq, Repr

/-! ## Engine objects -/

/-- Debug name given to `dag::create_tex`. The two cascade names are built
with `String(0, "velocity_pressure_cascade_%d", i)` and
`String(0, "next_velocity_pressure_cascade_%d", i)`. -/
inductive TexName where
  | velocity_density_tex
  | next_velocity_density_tex
  | velocity_pressure_cascade (i : Int)
  | next_velocity_pressure_cascade (i : Int)
  deriving DecidableEq, Repr

/-- Texture addressing mode. -/
inductive TexAddr where
  | TEXADDR_WRAP
  | TEXADDR_MIRROR
  deriving DecidableEq, Repr

/-- Engine-wide texture identifier. -/
structure TEXTUREID where
  id : Nat
  deriving DecidableEq, Repr

/-- A `UniqueTex`: the texture made by `dag::create_tex(NULL, w, h, flags, 1, name)`.
The format flags are the same constant for every texture of this file and are
left out. -/
structure Tex where
  texId : TEXTUREID
  name : TexName
  w : Int
  h : Int
  addr : TexAddr
  deriving DecidableEq, Repr

/-- The call `getTexId()` of `UniqueTex`. -/
def Tex.getTexId (t : Tex) : TEXTUREID := t.texId

/-- The call `getTex2D()->texaddr(a)`. -/
def Tex.texaddr (t : Tex) (a : TexAddr) : Tex := { t with addr := a }

/-- A compute shader object made by `new_compute_shader(name)`; `handle`
tells apart two objects made from the same shader name. -/
structure ComputeShader where
  handle : Nat
  name : String
  deriving DecidableEq, Repr

/-- A `PostFxRenderer` initialised by `init(name)`. -/
structure PostFxRenderer where
  name : String
  deriving DecidableEq, Repr

structure IPoint2 where
  x : Int
  y : Int
  deriving DecidableEq, Repr

structure IPoint4 where
  x : Int
  y : Int
  z : Int
  w : Int
  deriving DecidableEq, Repr

structure Point2 where
  x : F32
  y : F32
  deriving DecidableEq, Repr

structure Color4 where
  r : F32
  g : F32
  b : F32
  a : F32
  deriving DecidableEq, Repr

/-- The enumeration `PlotType`. Its enumerators are declared in `solver.h`,
which is not among the sources; only the conversion `(int)plot_type` is used,
so a value is kept as that `int`. -/
structure PlotType where
  toInt : Int
  deriving DecidableEq, Repr

/-- The member `velDensityTex[2]`. -/
structure TexPair where
  t0 : Tex
  t1 : Tex
  deriving DecidableEq, Repr

/-- The access `velDensityTex[i]` with a computed index. -/
def TexPair.get (p : TexPair) (i : Int) : Except Fault Tex :=
  if i = 0 then .ok p.t0 else if i = 1 then .ok p.t1 else .error (.indexOutOfBounds i)

/-! ## Environment: shader-variable identifiers and the command stream -/

/-- The twelve file-scope variables `static int a##VarId` of `VARS_LIST`. -/
structure VarIds where
  velocity_density_texVarId : Int
  next_velocity_density_texVarId : Int
  tex_sizeVarId : Int
  plot_typeVarId : Int
  plot_texVarId : Int
  simulation_dtVarId : Int
  simulation_dxVarId : Int
  simulation_timeVarId : Int
  standard_densityVarId : Int
  standard_velocityVarId : Int
  initial_velocity_density_texVarId : Int
  euler_implicit_modeVarId : Int
  deriving DecidableEq, Repr

/-- The initialiser `= -1` of every variable of `VARS_LIST`. -/
def VarIds.initial : VarIds :=
  ⟨-1, -1, -1, -1, -1, -1, -1, -1, -1, -1, -1, -1⟩

/-- One call into `ShaderGlobal`, a compute dispatch or a post-fx render. -/
inductive Cmd where
  | set_texture (var_id : Int) (tex : Tex)
  | set_texture_id (var_id : Int) (id : TEXTUREID)
  | set_real (var_id : Int) (v : F32)
  | set_int (var_id : Int) (v : Int)
  | set_int4 (var_id : Int) (v : IPoint4)
  | set_color4 (var_id : Int) (v : Color4)
  | dispatchThreads (cs : ComputeShader) (x y z : Int)
  | render (fx : PostFxRenderer)
  deriving DecidableEq, Repr

/-- Everything outside the solver objects that the code reads or writes. -/
structure Env where
  vars : VarIds
  cmds : List Cmd
  nextTexId : Nat
  nextShader : Nat
  deriving DecidableEq, Repr

/-- Append commands to the stream. -/
def Env.emit (e : Env) (cs : List Cmd) : Env := { e with cmds := e.cmds ++ cs }

/-- The call `dag::create_tex(NULL, w, h, flags, 1, name)`. -/
def create_tex (e : Env) (w h : Int) (name : TexName) : Tex × Env :=
  (⟨⟨e.nextTexId⟩, name, w, h, .TEXADDR_WRAP⟩, { e with nextTexId := e.nextTexId + 1 })

/-- The call `new_compute_shader(name)`. -/
def new_compute_shader (e : Env) (name : String) : ComputeShader × Env :=
  (⟨e.nextShader, name⟩, { e with nextShader := e.nextShader + 1 })

/-- The block `a##VarId = get_shader_variable_id(#a, true);` expanded over
`VARS_LIST`. The lookup itself is an engine function and is a parameter. -/
def resolveVars (get_shader_variable_id : String → Bool → Int) : VarIds where
  velocity_density_texVarId := get_shader_variable_id "velocity_density_tex" true
  next_velocity_density_texVarId := get_shader_variable_id "next_velocity_density_tex" true
  tex_sizeVarId := get_shader_variable_id "tex_size" true
  plot_typeVarId := get_shader_variable_id "plot_type" true
  plot_texVarId := get_shader_variable_id "plot_tex" true
  simulation_dtVarId := get_shader_variable_id "simulation_dt" true
  simulation_dxVarId := get_shader_variable_id "simulation_dx" true
  simulation_timeVarId := get_shader_variable_id "simulation_time" true
  standard_densityVarId := get_shader_variable_id "standard_density" true
  standard_velocityVarId := get_shader_variable_id "standard_velocity" true
  initial_velocity_density_texVarId := get_shader_variable_id "initial_velocity_density_tex" true
  euler_implicit_modeVarId := get_shader_variable_id "euler_implicit_mode" true

/-! ## The loop shared by both `solveEquations` -/

/-- The variables a `solveEquations` loop changes: the locals `currentIdx`
and `currentImplicit`, the member `simulationTime` and the command stream. -/
structure LoopSt where
  currentIdx : Int
  currentImplicit : Int
  simulationTime : F32
  cmds : List Cmd
  deriving DecidableEq, Repr

/-- The loop `for (int i = 0; i < num_dispatches; ++i) body`, the body run
`count` times (`count` is `num_dispatches` when that is positive, else 0). -/
def forLoop (body : LoopSt → Except Fault LoopSt) : Nat → LoopSt → Except Fault LoopSt
  | 0, st => .ok st
  | k + 1, st => body st >>= forLoop body k

/-! ## Solver -/

/-- Modelled from the spec: the in-class initialiser of `totalNumDispatches`
in both solver classes. The header `solver.h` is not among the sources; the
specified properties are about solvers that start with no dispatch counted. -/
def initialTotalNumDispatches : Int := 0

/-- Modelled from the spec: the in-class initialiser of `simulationTime` in
both solver classes (`solver.h` is not among the sources), taken to be
`0.0f`. No property below depends on this value. -/
def initialSimulationTime : F32 := .lit 0 1

/-- The class `cfd::Solver`. The members `textureWidth` and `textureHeight`
hold the `uint32_t` constructor arguments; the engine calls that receive them
take `int` sizes, hence the `toI32` at each use. -/
structure Solver where
  textureWidth : Nat
  textureHeight : Nat
  initialConditionsCs : ComputeShader
  solverCs : ComputeShader
  blurCs : ComputeShader
  showSolution : PostFxRenderer
  velDensityTex : TexPair
  simulationTime : F32
  totalNumDispatches : Int
  deriving DecidableEq, Repr

/-- The constructor `Solver::Solver`. The members it does not mention keep
their in-class initialisers. -/
def Solver.new (get_shader_variable_id : String → Bool → Int) (e : Env)
    (solver_shader_name : String) (tex_width tex_height : Nat) (spatal_step : F32) :
    Solver × Env :=
  let e := { e with vars := resolveVars get_shader_variable_id }
  let (initialConditionsCs, e) := new_compute_shader e "fill_initial_conditions"
  let (solverCs, e) := new_compute_shader e solver_shader_name
  let (blurCs, e) := new_compute_shader e "blur_result_cs"
  let showSolution : PostFxRenderer := ⟨"show_cfd_solution"⟩
  let (tex0, e) := create_tex e (toI32 tex_width) (toI32 tex_height) .velocity_density_tex
  let (tex1, e) := create_tex e (toI32 tex_width) (toI32 tex_height) .next_velocity_density_tex
  let tex0 := tex0.texaddr .TEXADDR_MIRROR
  let tex1 := tex1.texaddr .TEXADDR_MIRROR
  let e := e.emit
    [.set_int4 e.vars.tex_sizeVarId ⟨toI32 tex_width, toI32 tex_height, 0, 0⟩,
     .set_real e.vars.simulation_dxVarId spatal_step]
  ({ textureWidth := tex_width, textureHeight := tex_height,
     initialConditionsCs := initialConditionsCs, solverCs := solverCs, blurCs := blurCs,
     showSolution := showSolution, velDensityTex := ⟨tex0, tex1⟩,
     simulationTime := initialSimulationTime,
     totalNumDispatches := initialTotalNumDispatches }, e)

/-- The member function `Solver::fillInitialConditions`. -/
def Solver.fillInitialConditions (s : Solver) (e : Env) (standard_density : F32)
    (standard_velocity : Point2) : Solver × Env :=
  (s, e.emit
    [.set_texture e.vars.velocity_density_texVarId s.velDensityTex.t0,
     .set_real e.vars.standard_densityVarId standard_density,
     .set_color4 e.vars.standard_velocityVarId
       ⟨standard_velocity.x, standard_velocity.y, .lit 0 1, .lit 0 1⟩,
     .dispatchThreads s.initialConditionsCs (toI32 s.textureWidth) (toI32 s.textureHeight) 1])

/-- One pass through the body of the loop of `Solver::solveEquations`. -/
def Solver.loopBody (s : Solver) (vars : VarIds) (dt : F32) (st : LoopSt) :
    Except Fault LoopSt := do
  let cur ← s.velDensityTex.get st.currentIdx
  let next ← s.velDensityTex.get (1 - st.currentIdx)
  let cmds := st.cmds ++
    [.set_texture vars.velocity_density_texVarId cur,
     .set_texture vars.next_velocity_density_texVarId next,
     .set_real vars.simulation_dtVarId dt,
     .set_real vars.simulation_timeVarId st.simulationTime,
     .set_int vars.euler_implicit_modeVarId st.currentImplicit,
     .dispatchThreads s.solverCs (toI32 s.textureWidth) (toI32 s.textureHeight) 1]
  let simulationTime := F32.add st.simulationTime dt
  let currentIdx := Int.tmod (st.currentIdx + 1) 2
  let currentImplicit := Int.tmod (st.currentImplicit + 1) 2
  let cur ← s.velDensityTex.get currentIdx
  let next ← s.velDensityTex.get (1 - currentIdx)
  let cmds := cmds ++
    [.set_texture vars.velocity_density_texVarId cur,
     .set_texture vars.next_velocity_density_texVarId next,
     .dispatchThreads s.blurCs (toI32 s.textureWidth) (toI32 s.textureHeight) 1]
  let currentIdx := Int.tmod (currentIdx + 1) 2
  return ⟨currentIdx, currentImplicit, simulationTime, cmds⟩

/-- The member function `Solver::solveEquations`. -/
def Solver.solveEquations (s : Solver) (e : Env) (dt : F32) (num_dispatches : Int) :
    Except Fault (Solver × Env) := do
  let st ← forLoop (s.loopBody e.vars dt) num_dispatches.toNat ⟨0, 0, s.simulationTime, e.cmds⟩
  let total ← addInt s.totalNumDispatches num_dispatches
  return ({ s with simulationTime := st.simulationTime, totalNumDispatches := total },
          { e with cmds := st.cmds })

/-- The member function `Solver::showResult`. -/
def Solver.showResult (s : Solver) (e : Env) (plot_type : PlotType) : Solver × Env :=
  (s, e.emit
    [.set_int e.vars.plot_typeVarId plot_type.toInt,
     .set_texture_id e.vars.plot_texVarId s.velDensityTex.t0.getTexId,
     .render s.showSolution])

/-- The member function `Solver::getNumDispatches`. -/
def Solver.getNumDispatches (s : Solver) : Int := s.totalNumDispatches

/-- The member function `Solver::getSimulationTime`. -/
def Solver.getSimulationTime (s : Solver) : F32 := s.simulationTime

/-! ## CascadeSolver -/

/-- Modelled from the spec: the constant `NUM_CASCADES` of `CascadeSolver`,
declared in `solver.h`, which is not among the sources. Its value 4 is the
number of cascades of the specification; in `solver.cpp` it is the length of
`cascadeDtMultipliers` and of the `eastl::array<uint32_t, 4>` moved into
`numDispatchesPerCascade`. -/
def NUM_CASCADES : Int := 4

/-- An `eastl::array<T, 4>`. -/
structure Array4 (α : Type) where
  a0 : α
  a1 : α
  a2 : α
  a3 : α
  deriving DecidableEq, Repr

/-- The access `arr[i]` of an `eastl::array<T, 4>`. -/
def Array4.get {α : Type} (arr : Array4 α) (i : Int) : Except Fault α :=
  if i = 0 then .ok arr.a0 else if i = 1 then .ok arr.a1
  else if i = 2 then .ok arr.a2 else if i = 3 then .ok arr.a3
  else .error (.indexOutOfBounds i)

/-- The constant `cascadeDtMultipliers[4] = {2.0f, 2.0f, 1.5f, 1.0f}`. -/
def cascadeDtMultipliers : Array4 F32 := ⟨.lit 20 1, .lit 20 1, .lit 15 1, .lit 10 1⟩

/-- The struct `CascadeSolver::Cascade`. -/
structure Cascade where
  texSize : IPoint2
  spatialStep : F32
  dtMultiplier : F32
  velDensityTex : TexPair
  deriving DecidableEq, Repr

/-- The access `cascades[i]` of the vector `cascades`. -/
def cascadeAt (cascades : List Cascade) (i : Int) : Except Fault Cascade :=
  if 0 ≤ i then
    match cascades.get? i.toNat with
    | some c => .ok c
    | none => .error (.indexOutOfBounds i)
  else .error (.indexOutOfBounds i)

/-- Modelled from the spec: the in-class initialiser of `currentCascade`
(`solver.h` is not among the sources); a new solver starts in cascade 0. -/
def initialCurrentCascade : Int := 0

/-- Modelled from the spec: the in-class initialiser of `curNumDispatches`
(`solver.h` is not among the sources); a new solver has dispatched nothing in
its current cascade. -/
def initialCurNumDispatches : Int := 0

/-- The class `cfd::CascadeSolver`. The counters `currentCascade`,
`curNumDispatches` and `totalNumDispatches` are `int`s; the limits in
`numDispatchesPerCascade` are `uint32_t`s. -/
structure CascadeSolver where
  numDispatchesPerCascade : Array4 Nat
  initialConditionsCs : ComputeShader
  initialConditionsFromTexCs : ComputeShader
  solverCs : ComputeShader
  blurCs : ComputeShader
  showSolution : PostFxRenderer
  cascades : List Cascade
  currentCascade : Int
  curNumDispatches : Int
  totalNumDispatches : Int
  simulationTime : F32
  deriving DecidableEq, Repr

/-- The body of the constructor loop for one value of `i`: it appends the
new cascade to `cascades`. `1 << k` is `2 ^ k`; the division is the unsigned
one of `uint32_t`, its result converted to the `int` of `IPoint2`. -/
def CascadeSolver.pushCascade (tex_width tex_height : Nat) (spatial_step : F32)
    (acc : Except Fault (List Cascade × Env)) (i : Nat) : Except Fault (List Cascade × Env) := do
  let (cascades, e) ← acc
  let shift : Nat := (NUM_CASCADES - 1 - (i : Int)).toNat
  let texSize : IPoint2 := ⟨toI32 (tex_width / 2 ^ shift), toI32 (tex_height / 2 ^ shift)⟩
  let spatialStep := F32.mul spatial_step (.ofInt (2 ^ shift))
  let dtMultiplier ← cascadeDtMultipliers.get i
  let (tex0, e) := create_tex e texSize.x texSize.y (.velocity_pressure_cascade i)
  let (tex1, e) := create_tex e texSize.x texSize.y (.next_velocity_pressure_cascade i)
  let tex0 := tex0.texaddr .TEXADDR_MIRROR
  let tex1 := tex1.texaddr .TEXADDR_MIRROR
  return (cascades ++ [⟨texSize, spatialStep, dtMultiplier, ⟨tex0, tex1⟩⟩], e)

/-- The constructor `CascadeSolver::CascadeSolver`. The members it does not
mention keep their in-class initialisers. -/
def CascadeSolver.new (get_shader_variable_id : String → Bool → Int) (e : Env)
    (solver_shader_name : String) (tex_width tex_height : Nat)
    (num_dispatches_per_cascade : Array4 Nat) (spatial_step : F32) :
    Except Fault (CascadeSolver × Env) := do
  let e := { e with vars := resolveVars get_shader_variable_id }
  let (initialConditionsCs, e) := new_compute_shader e "fill_initial_conditions"
  let (initialConditionsFromTexCs, e) := new_compute_shader e "fill_initial_conditions_from_tex"
  let (solverCs, e) := new_compute_shader e solver_shader_name
  let (blurCs, e) := new_compute_shader e "blur_result_cs"
  let showSolution : PostFxRenderer := ⟨"show_cfd_solution"⟩
  let (cascades, e) ← (List.range NUM_CASCADES.toNat).foldl
    (CascadeSolver.pushCascade tex_width tex_height spatial_step) (.ok ([], e))
  return ({ numDispatchesPerCascade := num_dispatches_per_cascade,
            initialConditionsCs := initialConditionsCs,
            initialConditionsFromTexCs := initialConditionsFromTexCs,
            solverCs := solverCs, blurCs := blurCs, showSolution := showSolution,
            cascades := cascades, currentCascade := initialCurrentCascade,
            curNumDispatches := initialCurNumDispatches,
            totalNumDispatches := initialTotalNumDispatches,
            simulationTime := initialSimulationTime }, e)

/-- The member function `CascadeSolver::fillNextCascadeInitialConditions`. -/
def CascadeSolver.fillNextCascadeInitialConditions (s : CascadeSolver) (e : Env) :
    Except Fault (CascadeSolver × Env) := do
  let cur ← cascadeAt s.cascades s.currentCascade
  let e := e.emit [.set_texture e.vars.initial_velocity_density_texVarId cur.velDensityTex.t0]
  let nextIdx ← addInt s.currentCascade 1
  let next ← cascadeAt s.cascades nextIdx
  return (s, e.emit [.dispatchThreads s.initialConditionsFromTexCs next.texSize.x next.texSize.y 1])

/-- The member function `CascadeSolver::switchToCascade`. -/
def CascadeSolver.switchToCascade (s : CascadeSolver) (e : Env) (cascade : Int) :
    Except Fault (CascadeSolver × Env) := do
  let c ← cascadeAt s.cascades cascade
  let e := e.emit
    [.set_texture e.vars.velocity_density_texVarId c.velDensityTex.t0,
     .set_texture e.vars.next_velocity_density_texVarId c.velDensityTex.t1,
     .set_int4 e.vars.tex_sizeVarId ⟨c.texSize.x, c.texSize.y, 0, 0⟩,
     .set_real e.vars.simulation_dxVarId c.spatialStep]
  let (s, e) ← s.fillNextCascadeInitialConditions e
  return ({ s with curNumDispatches := 0, currentCascade := cascade }, e)

/-- The member function `CascadeSolver::fillInitialConditions`. -/
def CascadeSolver.fillInitialConditions (s : CascadeSolver) (e : Env) (standard_density : F32)
    (standard_velocity : Point2) : Except Fault (CascadeSolver × Env) := do
  let (s, e) ← s.switchToCascade e 0
  let e := e.emit
    [.set_real e.vars.standard_densityVarId standard_density,
     .set_color4 e.vars.standard_velocityVarId
       ⟨standard_velocity.x, standard_velocity.y, .lit 0 1, .lit 0 1⟩]
  let c ← cascadeAt s.cascades s.currentCascade
  return (s, e.emit [.dispatchThreads s.initialConditionsCs c.texSize.x c.texSize.y 1])

/-- One pass through the body of the loop of `CascadeSolver::solveEquations`. -/
def CascadeSolver.loopBody (s : CascadeSolver) (vars : VarIds) (actualDt : F32) (st : LoopSt) :
    Except Fault LoopSt := do
  let c ← cascadeAt s.cascades s.currentCascade
  let cur ← c.velDensityTex.get st.currentIdx
  let next ← c.velDensityTex.get (1 - st.currentIdx)
  let cmds := st.cmds ++
    [.set_texture vars.velocity_density_texVarId cur,
     .set_texture vars.next_velocity_density_texVarId next,
     .dispatchThreads s.solverCs c.texSize.x c.texSize.y 1]
  let simulationTime := F32.add st.simulationTime actualDt
  let currentIdx := Int.tmod (st.currentIdx + 1) 2
  let currentImplicit := Int.tmod (st.currentImplicit + 1) 2
  let cur ← c.velDensityTex.get currentIdx
  let next ← c.velDensityTex.get (1 - currentIdx)
  let cmds := cmds ++
    [.set_texture vars.velocity_density_texVarId cur,
     .set_texture vars.next_velocity_density_texVarId next,
     .dispatchThreads s.blurCs c.texSize.x c.texSize.y 1]
  let currentIdx := Int.tmod (currentIdx + 1) 2
  return ⟨currentIdx, currentImplicit, simulationTime, cmds⟩

/-- The test `curNumDispatches > numDispatchesPerCascade[currentCascade]`
that opens `CascadeSolver::solveEquations`; the `int` on the left is compared
as `uint32_t`. -/
def CascadeSolver.earlyReturn (s : CascadeSolver) : Except Fault Bool := do
  let limit ← s.numDispatchesPerCascade.get s.currentCascade
  return decide (toU32 s.curNumDispatches > limit)

/-- The member function `CascadeSolver::solveEquations`. -/
def CascadeSolver.solveEquations (s : CascadeSolver) (e : Env) (dt : F32) (num_dispatches : Int) :
    Except Fault (CascadeSolver × Env) := do
  if ← s.earlyReturn then
    return (s, e)
  let c ← cascadeAt s.cascades s.currentCascade
  let actualDt := F32.mul dt c.dtMultiplier
  let e := e.emit [.set_real e.vars.simulation_dtVarId actualDt]
  let st ← forLoop (s.loopBody e.vars actualDt) num_dispatches.toNat ⟨0, 0, s.simulationTime, e.cmds⟩
  let e := { e with cmds := st.cmds }
  let cur ← addInt s.curNumDispatches num_dispatches
  let total ← addInt s.totalNumDispatches num_dispatches
  let s := { s with simulationTime := st.simulationTime, curNumDispatches := cur,
                    totalNumDispatches := total }
  let limit ← s.numDispatchesPerCascade.get s.currentCascade
  if toU32 s.curNumDispatches ≥ limit then
    if s.currentCascade ≠ NUM_CASCADES - 1 then
      let nextIdx ← addInt s.currentCascade 1
      s.switchToCascade e nextIdx
    else
      return (s, e)
  else
    return (s, e)

/-- The member function `CascadeSolver::showResult`. -/
def CascadeSolver.showResult (s : CascadeSolver) (e : Env) (plot_type : PlotType) :
    Except Fault (CascadeSolver × Env) := do
  let e := e.emit [.set_int e.vars.plot_typeVarId plot_type.toInt]
  let c ← cascadeAt s.cascades s.currentCascade
  return (s, e.emit
    [.set_texture_id e.vars.plot_texVarId c.velDensityTex.t0.getTexId,
     .render s.showSolution])

/-- The member function `CascadeSolver::getSimulationTime`. -/
def CascadeSolver.getSimulationTime (s : CascadeSolver) : F32 := s.simulationTime

/-- The member function `CascadeSolver::getNumDispatches`. -/
def CascadeSolver.getNumDispatches (s : CascadeSolver) : Int := s.totalNumDispatches

/-- A sequence of `solveEquations(dt, num_dispatches)` calls on one solver. -/
def CascadeSolver.solveMany (s : CascadeSolver) (e : Env) :
    List (F32 × Int) → Except Fault (CascadeSolver × Env)
  | [] => .ok (s, e)
  | (dt, n) :: rest =>
    match s.solveEquations e dt n with
    | .ok (s', e') => CascadeSolver.solveMany s' e' rest
    | .error f => .error f

/-- A sequence of `solveEquations(dt, num_dispatches)` calls on one `Solver`. -/
def Solver.solveMany (s : Solver) (e : Env) : List (F32 × Int) → Except Fault (Solver × Env)
  | [] => .ok (s, e)
  | (dt, n) :: rest =>
    match s.solveEquations e dt n with
    | .ok (s', e') => Solver.solveMany s' e' rest
    | .error f => .error f

/-- Number of `dispatchThreads` calls on the shader object `cs` in a command
stream. -/
def countDispatches (cs : ComputeShader) : List Cmd → Nat
  | [] => 0
  | .dispatchThreads cs' _ _ _ :: rest => (if cs' = cs then 1 else 0) + countDispatches cs rest
  | _ :: rest => countDispatches cs rest

/-- Sum of the `num_dispatches` arguments over the calls of a sequence that
did not leave `CascadeSolver::solveEquations` through its early return. -/
def CascadeSolver.issued (s : CascadeSolver) (e : Env) : List (F32 × Int) → Int
  | [] => 0
  | (dt, n) :: rest =>
    match s.solveEquations e dt n with
    | .ok (s', e') =>
      (match s.earlyReturn with
        | .ok true => 0
        | _ => n) + CascadeSolver.issued s' e' rest
    | .error _ => 0

/-! ## The ping-pong pattern, as the specification words it -/

/-- One loop pass of `Solver::solveEquations` as the ping-pong pattern
describes it: the solver dispatch reads slot 0 and writes slot 1, the blur
dispatch reads slot 1 and writes slot 0, and the pass ends where it began,
at index 0. -/
def Solver.pingPongPass (s : Solver) (vars : VarIds) (dt : F32) (st : LoopSt) : LoopSt :=
  { currentIdx := 0
    currentImplicit := Int.tmod (st.currentImplicit + 1) 2
    simulationTime := F32.add st.simulationTime dt
    cmds := st.cmds ++
      [.set_texture vars.velocity_density_texVarId s.velDensityTex.t0,
       .set_texture vars.next_velocity_density_texVarId s.velDensityTex.t1,
       .set_real vars.simulation_dtVarId dt,
       .set_real vars.simulation_timeVarId st.simulationTime,
       .set_int vars.euler_implicit_modeVarId st.currentImplicit,
       .dispatchThreads s.solverCs (toI32 s.textureWidth) (toI32 s.textureHeight) 1,
       .set_texture vars.velocity_density_texVarId s.velDensityTex.t1,
       .set_texture vars.next_velocity_density_texVarId s.velDensityTex.t0,
       .dispatchThreads s.blurCs (toI32 s.textureWidth) (toI32 s.textureHeight) 1] }

/-- One loop pass of `CascadeSolver::solveEquations` on the cascade `c`, as
the ping-pong pattern describes it. -/
def CascadeSolver.pingPongPass (s : CascadeSolver) (c : Cascade) (vars : VarIds) (actualDt : F32)
    (st : LoopSt) : LoopSt :=
  { currentIdx := 0
    currentImplicit := Int.tmod (st.currentImplicit + 1) 2
    simulationTime := F32.add st.simulationTime actualDt
    cmds := st.cmds ++
      [.set_texture vars.velocity_density_texVarId c.velDensityTex.t0,
       .set_texture vars.next_velocity_density_texVarId c.velDensityTex.t1,
       .dispatchThreads s.solverCs c.texSize.x c.texSize.y 1,
       .set_texture vars.velocity_density_texVarId c.velDensityTex.t1,
       .set_texture vars.next_velocity_density_texVarId c.velDensityTex.t0,
       .dispatchThreads s.blurCs c.texSize.x c.texSize.y 1] }

/-- A lookup for the examples: the identifier of a variable is the length of
its name. -/
def Example.lookup : String → Bool → Int := fun name _ => name.length

/-- The environment before anything is constructed. -/
def Example.env : Env := ⟨VarIds.initial, [], 0, 0⟩

/-- A `Solver` on a 64 x 32 grid, with the environment its constructor
leaves. -/
def Example.solver : Solver × Env :=
  Solver.new Example.lookup Example.env "solver" 64 32 (.lit 1 0)

/-- A `CascadeSolver` on a 64 x 32 grid with the given dispatch limits. -/
def Example.cascadeSolver (limits : Array4 Nat) : Except Fault (CascadeSolver × Env) :=
  CascadeSolver.new Example.lookup Example.env "solver" 64 32 limits (.lit 1 0)

/-! ## Auxiliary definitions of the proofs -/

/-- The commands `switchToCascade(cascade)` issues: `target` is
`cascades[cascade]`, `cur` is `cascades[currentCascade]` and `next` is
`cascades[currentCascade + 1]`, both taken before `currentCascade` changes. -/
def switchCmds (s : CascadeSolver) (vars : VarIds) (target cur next : Cascade) : List Cmd :=
  [.set_texture vars.velocity_density_texVarId target.velDensityTex.t0,
   .set_texture vars.next_velocity_density_texVarId target.velDensityTex.t1,
   .set_int4 vars.tex_sizeVarId ⟨target.texSize.x, target.texSize.y, 0, 0⟩,
   .set_real vars.simulation_dxVarId target.spatialStep,
   .set_texture vars.initial_velocity_density_texVarId cur.velDensityTex.t0,
   .dispatchThreads s.initialConditionsFromTexCs next.texSize.x next.texSize.y 1]

/-- The loop state when the loop of `CascadeSolver::solveEquations` ends. -/
def CascadeSolver.loopResult (s : CascadeSolver) (e : Env) (c : Cascade) (dt : F32)
    (num_dispatches : Int) : LoopSt :=
  (s.pingPongPass c e.vars (F32.mul dt c.dtMultiplier))^[num_dispatches.toNat]
    ⟨0, 0, s.simulationTime,
      e.cmds ++ [.set_real e.vars.simulation_dtVarId (F32.mul dt c.dtMultiplier)]⟩

/-- The share of one `solveEquations` call in `CascadeSolver.issued`. -/
def CascadeSolver.issuedByCall (s : CascadeSolver) (n : Int) : Int :=
  match s.earlyReturn with
  | .ok true => 0
  | _ => n

/-- What holds of a `CascadeSolver` after construction and after each
`solveEquations` call. -/
structure CascadeSolver.Inv (s : CascadeSolver) : Prop where
  len : s.cascades.length = 4
  cc_lo : 0 ≤ s.currentCascade
  cc_hi : s.currentCascade ≤ NUM_CASCADES - 1
  cur_lo : 0 ≤ s.curNumDispatches
  cur_le : s.curNumDispatches ≤ s.totalNumDispatches
  total_hi : s.totalNumDispatches ≤ INT_MAX
  confined : s.currentCascade ≠ NUM_CASCADES - 1 → ∀ limit : Nat,
    s.numDispatchesPerCascade.get s.currentCascade = .ok limit → s.curNumDispatches ≤ limit

end cfd

namespace dabfg

/-! ## Resource-usage policy (`resourceUsage.h`) -/

/-- The struct `intermediate::ResourceUsage`, which `resourceUsage.h` builds
with `intermediate::ResourceUsage{usage.access, usage.type, usage.stage}`.
The enumerations `Access`, `Usage` and `Stage` are declared in headers that
are not among the sources and are type parameters here. -/
structure intermediate.ResourceUsage (Access Usage Stage : Type) where
  access : Access
  type : Usage
  stage : Stage
  deriving DecidableEq, Repr

/-- The API-level struct `ResourceUsage` of `render/daBfg/usage.h`. The
inline overload reads its members `access`, `type` and `stage`; `rest` stands
for whatever else the struct holds. -/
structure ResourceUsage (Access Usage Stage Rest : Type) where
  access : Access
  type : Usage
  stage : Stage
  rest : Rest
  deriving DecidableEq, Repr

/-- The inline overload `get_activation_from_usage(History, ResourceUsage,
ResourceType)` of `resourceUsage.h`. The intermediate-level overload it calls
is only declared in the header and is the parameter
`get_activation_from_usage_ir`. -/
def get_activation_from_usage {History Access Usage Stage Rest ResourceType Action : Type}
    (get_activation_from_usage_ir :
      History → intermediate.ResourceUsage Access Usage Stage → ResourceType → Option Action)
    (history : History) (usage : ResourceUsage Access Usage Stage Rest)
    (res_type : ResourceType) : Option Action :=
  get_activation_from_usage_ir history ⟨usage.access, usage.type, usage.stage⟩ res_type

/-- Modelled from the spec: the enumeration `History` (`render/daBfg/history.h`
is not among the sources). The specification knows three cross-frame content
policies: must-clear, must-preserve and don't-care. -/
inductive History where
  | mustClear
  | mustPreserve
  | dontCare
  deriving DecidableEq, Repr

/-- Modelled from the spec: the access mode of a usage
(`render/daBfg/detail/access.h` is not among the sources); the specification
tells read-only usages from writes. -/
inductive Access where
  | readOnly
  | write
  deriving DecidableEq, Repr

/-- Modelled from the spec: the activation actions, clear-to-zero and
discard (the type `ResourceActivationAction` belongs to the driver interface,
which is not among the sources). No action is `none` of the optional. -/
inductive ResourceActivationAction where
  | clear
  | discard
  deriving DecidableEq, Repr

/-- Modelled from the spec: the intermediate-level overload
`get_activation_from_usage(History, intermediate::ResourceUsage, ResourceType)`
(the spec's `activation_for`), declared in `resourceUsage.h` with its body in a
file that is not among the sources. The function is asked about the first
usage of a resource in a frame. Section 4.1: if the history requires
initialised-to-zero contents, return clear; if the history marks the contents
as don't-care and the first usage is a write, return discard; otherwise
return none. -/
def intermediate.get_activation_from_usage {Usage Stage ResourceType : Type}
    (history : History) (usage : intermediate.ResourceUsage Access Usage Stage)
    (_res_type : ResourceType) : Option ResourceActivationAction :=
  match history with
  | .mustClear => some .clear
  | .dontCare => if usage.access = .write then some .discard else none
  | .mustPreserve => none

end dabfg

namespace cfd

/-! ## Basic facts -/

theorem toU32_of_nonneg {x : Int} (h0 : 0 ≤ x) (h1 : x ≤ INT_MAX) : (toU32 x : Int) = x := by
  unfold toU32
  unfold INT_MAX at h1
  rw [Int.toNat_of_nonneg (by omega)]
  omega

theorem earlyReturn_of_limit {s : CascadeSolver} {limit : Nat}
    (hlim : s.numDispatchesPerCascade.get s.currentCascade = .ok limit) :
    s.earlyReturn = .ok (decide (toU32 s.curNumDispatches > limit)) := by
  simp [CascadeSolver.earlyReturn, hlim, bind, Except.bind, pure, Except.pure]

theorem solveEquations_of_earlyReturn {s : CascadeSolver} (h : s.earlyReturn = .ok true)
    (e : Env) (dt : F32) (n : Int) : s.solveEquations e dt n = .ok (s, e) := by
  simp [CascadeSolver.solveEquations, h, bind, Except.bind, pure, Except.pure]

theorem Solver.loopBody_pass (s : Solver) (vars : VarIds) (dt : F32) (st : LoopSt)
    (h : st.currentIdx = 0) : s.loopBody vars dt st = .ok (s.pingPongPass vars dt st) := by
  have h1 : Int.tmod 1 2 = 1 := by decide
  have h2 : Int.tmod 2 2 = 0 := by decide
  simp [Solver.loopBody, Solver.pingPongPass, TexPair.get, h, h1, h2, bind, Except.bind, pure,
    Except.pure]

theorem CascadeSolver.loopBody_eq (s : CascadeSolver) (c : Cascade) (vars : VarIds) (dt : F32)
    (st : LoopSt) (hc : cascadeAt s.cascades s.currentCascade = .ok c) (h : st.currentIdx = 0) :
    s.loopBody vars dt st = .ok (s.pingPongPass c vars dt st) := by
  have h1 : Int.tmod 1 2 = 1 := by decide
  have h2 : Int.tmod 2 2 = 0 := by decide
  simp [CascadeSolver.loopBody, CascadeSolver.pingPongPass, TexPair.get, h, h1, h2, hc, bind,
    Except.bind, pure, Except.pure]

theorem forLoop_eq_iterate (body : LoopSt → Except Fault LoopSt) (pass : LoopSt → LoopSt)
    (hbody : ∀ st, st.currentIdx = 0 → body st = .ok (pass st))
    (hpass : ∀ st, (pass st).currentIdx = 0) (k : Nat) (st : LoopSt) (h : st.currentIdx = 0) :
    forLoop body k st = .ok (pass^[k] st) := by
  induction k generalizing st with
  | zero => rfl
  | succ k ih =>
    simp only [forLoop, hbody st h, bind, Except.bind, Function.iterate_succ,
      Function.comp_apply]
    exact ih (pass st) (hpass st)

theorem Solver.forLoop_passes (s : Solver) (vars : VarIds) (dt : F32) (k : Nat) (st : LoopSt)
    (h : st.currentIdx = 0) :
    forLoop (s.loopBody vars dt) k st = .ok ((s.pingPongPass vars dt)^[k] st) :=
  forLoop_eq_iterate _ _ (s.loopBody_pass vars dt) (fun _ => rfl) k st h

theorem CascadeSolver.forLoop_eq (s : CascadeSolver) (c : Cascade) (vars : VarIds) (dt : F32)
    (k : Nat) (st : LoopSt) (hc : cascadeAt s.cascades s.currentCascade = .ok c)
    (h : st.currentIdx = 0) :
    forLoop (s.loopBody vars dt) k st = .ok ((s.pingPongPass c vars dt)^[k] st) :=
  forLoop_eq_iterate _ _ (fun st hst => s.loopBody_eq c vars dt st hc hst) (fun _ => rfl) k st h

theorem addInt_eq_ok {a b r : Int} (h : addInt a b = .ok r) :
    r = a + b ∧ INT_MIN ≤ a + b ∧ a + b ≤ INT_MAX := by
  unfold addInt at h
  split at h
  · rename_i hr
    simp only [Except.ok.injEq] at h
    exact ⟨h.symm, hr.1, hr.2⟩
  · simp at h

theorem addInt_of_range {a b : Int} (h1 : INT_MIN ≤ a + b) (h2 : a + b ≤ INT_MAX) :
    addInt a b = .ok (a + b) := by
  simp [addInt, h1, h2]

theorem switchToCascade_eq (s : CascadeSolver) (e : Env) (cascade : Int)
    (target cur next : Cascade) (ht : cascadeAt s.cascades cascade = .ok target)
    (hc : cascadeAt s.cascades s.currentCascade = .ok cur)
    (hn : cascadeAt s.cascades (s.currentCascade + 1) = .ok next)
    (hr : s.currentCascade + 1 ≤ INT_MAX) (hl : INT_MIN ≤ s.currentCascade + 1) :
    s.switchToCascade e cascade =
      .ok ({ s with curNumDispatches := 0, currentCascade := cascade },
           e.emit (switchCmds s e.vars target cur next)) := by
  simp [CascadeSolver.switchToCascade, CascadeSolver.fillNextCascadeInitialConditions, ht, hc, hn,
    addInt_of_range hl hr, switchCmds, Env.emit, bind, Except.bind, pure, Except.pure]

/-- What a call of `CascadeSolver::solveEquations` that passes the opening
test does, case by case. -/
theorem solveEquations_run {s s' : CascadeSolver} {e e' : Env} {dt : F32} {n : Int}
    {limit : Nat} {c : Cascade}
    (hlim : s.numDispatchesPerCascade.get s.currentCascade = .ok limit)
    (hc : cascadeAt s.cascades s.currentCascade = .ok c)
    (hnot : toU32 s.curNumDispatches ≤ limit)
    (h : s.solveEquations e dt n = .ok (s', e')) :
    (INT_MIN ≤ s.curNumDispatches + n ∧ s.curNumDispatches + n ≤ INT_MAX) ∧
    (INT_MIN ≤ s.totalNumDispatches + n ∧ s.totalNumDispatches + n ≤ INT_MAX) ∧
    ((¬ (limit ≤ toU32 (s.curNumDispatches + n) ∧ s.currentCascade ≠ NUM_CASCADES - 1) ∧
        s' = { s with simulationTime := (s.loopResult e c dt n).simulationTime,
                      curNumDispatches := s.curNumDispatches + n,
                      totalNumDispatches := s.totalNumDispatches + n } ∧
        e' = { e with cmds := (s.loopResult e c dt n).cmds }) ∨
     (limit ≤ toU32 (s.curNumDispatches + n) ∧ s.currentCascade ≠ NUM_CASCADES - 1 ∧
        ∃ next, cascadeAt s.cascades (s.currentCascade + 1) = .ok next ∧
        s' = { s with simulationTime := (s.loopResult e c dt n).simulationTime,
                      curNumDispatches := 0,
                      totalNumDispatches := s.totalNumDispatches + n,
                      currentCascade := s.currentCascade + 1 } ∧
        e' = { e with cmds := (s.loopResult e c dt n).cmds ++ switchCmds s e.vars next c next })) := by
  have hearly : s.earlyReturn = .ok false := by
    rw [earlyReturn_of_limit hlim]
    simp [hnot]
  have hloop := s.forLoop_eq c e.vars (F32.mul dt c.dtMultiplier) n.toNat
    ⟨0, 0, s.simulationTime,
      e.cmds ++ [.set_real e.vars.simulation_dtVarId (F32.mul dt c.dtMultiplier)]⟩ hc rfl
  unfold CascadeSolver.solveEquations at h
  simp only [hearly, hc, Env.emit, hloop, bind, Except.bind, pure, Except.pure] at h
  cases hcur : addInt s.curNumDispatches n with
  | error f => simp [hcur] at h
  | ok cur =>
    cases htot : addInt s.totalNumDispatches n with
    | error f => simp [hcur, htot] at h
    | ok total =>
      obtain ⟨rfl, hc1, hc2⟩ := addInt_eq_ok hcur
      obtain ⟨rfl, ht1, ht2⟩ := addInt_eq_ok htot
      simp only [hcur, htot, hlim, Bool.false_eq_true, if_false] at h
      refine ⟨⟨hc1, hc2⟩, ⟨ht1, ht2⟩, ?_⟩
      by_cases hge : limit ≤ toU32 (s.curNumDispatches + n)
      · by_cases hlast : s.currentCascade = NUM_CASCADES - 1
        · left
          simp only [ge_iff_le, hge, hlast, ne_eq, not_true_eq_false, if_true, if_false] at h
          cases h
          refine ⟨by simp [hlast], ?_, ?_⟩
          · simp [CascadeSolver.loopResult, hlast]
          · simp [CascadeSolver.loopResult]
        · right
          simp only [ge_iff_le, hge, ne_eq, hlast, not_false_eq_true, if_true] at h
          cases hadd : addInt s.currentCascade 1 with
          | error f => simp [hadd] at h
          | ok k =>
            obtain ⟨rfl, hk1, hk2⟩ := addInt_eq_ok hadd
            simp only [hadd] at h
            cases hnext : cascadeAt s.cascades (s.currentCascade + 1) with
            | error f =>
              simp [CascadeSolver.switchToCascade, hnext, bind, Except.bind] at h
            | ok next =>
              refine ⟨hge, hlast, next, rfl, ?_⟩
              rw [switchToCascade_eq _ _ _ next c next (by exact hnext) (by exact hc) (by exact hnext)
                (by exact hk2) (by exact hk1)] at h
              cases h
              refine ⟨?_, ?_⟩
              · simp [CascadeSolver.loopResult]
              · simp [CascadeSolver.loopResult, Env.emit, switchCmds]
      · left
        simp only [ge_iff_le, hge, if_false] at h
        cases h
        refine ⟨by simp [hge], ?_, ?_⟩
        · simp [CascadeSolver.loopResult]
        · simp [CascadeSolver.loopResult]

/-! ## The state invariant of `CascadeSolver` -/

theorem cascadeAt_of_length {cascades : List Cascade} (hlen : cascades.length = 4) {i : Int}
    (h0 : 0 ≤ i) (h3 : i ≤ 3) : ∃ c, cascadeAt cascades i = .ok c := by
  have hi : i.toNat < cascades.length := by omega
  refine ⟨cascades.get ⟨i.toNat, hi⟩, ?_⟩
  simp [cascadeAt, h0, List.getElem?_eq_getElem hi]

theorem Array4.get_of_range {α : Type} (arr : Array4 α) {i : Int} (h0 : 0 ≤ i) (h3 : i ≤ 3) :
    ∃ v, arr.get i = .ok v := by
  unfold Array4.get
  split_ifs
  · exact ⟨_, rfl⟩
  · exact ⟨_, rfl⟩
  · exact ⟨_, rfl⟩
  · exact ⟨_, rfl⟩
  · omega

theorem CascadeSolver.new_spec (lookup : String → Bool → Int) (e : Env) (name : String)
    (tw th : Nat) (nd : Array4 Nat) (ss : F32) :
    ∃ s e', CascadeSolver.new lookup e name tw th nd ss = .ok (s, e') ∧
      s.cascades.length = 4 ∧ s.currentCascade = 0 ∧ s.curNumDispatches = 0 ∧
      s.totalNumDispatches = 0 ∧ s.numDispatchesPerCascade = nd ∧
      e'.vars = resolveVars lookup ∧ e'.cmds = e.cmds ∧
      s.solverCs ≠ s.blurCs ∧ s.solverCs ≠ s.initialConditionsFromTexCs ∧
      s.blurCs ≠ s.initialConditionsFromTexCs := by
  refine ⟨_, _, rfl, rfl, rfl, rfl, rfl, rfl, rfl, rfl, ?_, ?_, ?_⟩
  · intro h
    have h' : e.nextShader + 1 + 1 = e.nextShader + 1 + 1 + 1 := congrArg ComputeShader.handle h
    omega
  · intro h
    have h' : e.nextShader + 1 + 1 = e.nextShader + 1 := congrArg ComputeShader.handle h
    omega
  · intro h
    have h' : e.nextShader + 1 + 1 + 1 = e.nextShader + 1 := congrArg ComputeShader.handle h
    omega

theorem CascadeSolver.Inv.of_new {s : CascadeSolver}
    (hlen : s.cascades.length = 4) (hcc : s.currentCascade = 0) (hcur : s.curNumDispatches = 0)
    (htot : s.totalNumDispatches = 0) : s.Inv := by
  refine ⟨hlen, ?_, ?_, ?_, ?_, ?_, ?_⟩
  · omega
  · rw [hcc]; decide
  · omega
  · omega
  · rw [htot]; decide
  · intro _ limit _
    rw [hcur]
    exact Int.ofNat_nonneg limit

/-- The two ways a `solveEquations` call on a state with the invariant ends. -/
theorem CascadeSolver.Inv.step {s s' : CascadeSolver} {e e' : Env} {dt : F32} {n : Int}
    (hinv : s.Inv) (hn : 0 ≤ n) (h : s.solveEquations e dt n = .ok (s', e')) :
    ∃ (limit : Nat) (c : Cascade),
      s.numDispatchesPerCascade.get s.currentCascade = .ok limit ∧
      cascadeAt s.cascades s.currentCascade = .ok c ∧
      ((s.earlyReturn = .ok true ∧ s.currentCascade = NUM_CASCADES - 1 ∧ s' = s ∧ e' = e) ∨
       (s.earlyReturn = .ok false ∧ s.totalNumDispatches + n ≤ INT_MAX ∧
        ((s' = { s with simulationTime := (s.loopResult e c dt n).simulationTime,
                        curNumDispatches := s.curNumDispatches + n,
                        totalNumDispatches := s.totalNumDispatches + n } ∧
          e' = { e with cmds := (s.loopResult e c dt n).cmds } ∧
          (s.currentCascade ≠ NUM_CASCADES - 1 → s.curNumDispatches + n < limit)) ∨
         (s.currentCascade ≠ NUM_CASCADES - 1 ∧
          ∃ next, cascadeAt s.cascades (s.currentCascade + 1) = .ok next ∧
          s' = { s with simulationTime := (s.loopResult e c dt n).simulationTime,
                        curNumDispatches := 0,
                        totalNumDispatches := s.totalNumDispatches + n,
                        currentCascade := s.currentCascade + 1 } ∧
          e' = { e with cmds := (s.loopResult e c dt n).cmds ++
                                  switchCmds s e.vars next c next })))) := by
  have h3 : s.currentCascade ≤ 3 := by have := hinv.cc_hi; unfold NUM_CASCADES at this; omega
  obtain ⟨limit, hlim⟩ := s.numDispatchesPerCascade.get_of_range hinv.cc_lo h3
  obtain ⟨c, hc⟩ := cascadeAt_of_length hinv.len hinv.cc_lo h3
  have hcurmax : s.curNumDispatches ≤ INT_MAX := le_trans hinv.cur_le hinv.total_hi
  have hu := toU32_of_nonneg hinv.cur_lo hcurmax
  refine ⟨limit, c, hlim, hc, ?_⟩
  by_cases hearly : toU32 s.curNumDispatches > limit
  · left
    have he : s.earlyReturn = .ok true := by
      rw [earlyReturn_of_limit hlim]; simp [hearly]
    rw [solveEquations_of_earlyReturn he] at h
    cases h
    refine ⟨he, ?_, rfl, rfl⟩
    by_contra hne
    have := hinv.confined hne limit hlim
    omega
  · right
    have hnot : toU32 s.curNumDispatches ≤ limit := by omega
    have he : s.earlyReturn = .ok false := by
      rw [earlyReturn_of_limit hlim]; simp [hnot]
    obtain ⟨⟨hc1, hc2⟩, ⟨_, ht2⟩, hcases⟩ := solveEquations_run hlim hc hnot h
    have hu' := toU32_of_nonneg (x := s.curNumDispatches + n) (by have := hinv.cur_lo; omega) hc2
    refine ⟨he, ht2, ?_⟩
    rcases hcases with ⟨hno, hs, he'⟩ | ⟨_, hne, next, hnext, hs, he'⟩
    · left
      refine ⟨hs, he', fun hne => ?_⟩
      have : ¬ limit ≤ toU32 (s.curNumDispatches + n) := fun hle => hno ⟨hle, hne⟩
      omega
    · right
      exact ⟨hne, next, hnext, hs, he'⟩

theorem CascadeSolver.Inv.preserved {s s' : CascadeSolver} {e e' : Env} {dt : F32} {n : Int}
    (hinv : s.Inv) (hn : 0 ≤ n) (h : s.solveEquations e dt n = .ok (s', e')) :
    s'.Inv ∧ (s'.currentCascade = s.currentCascade ∨ s'.currentCascade = s.currentCascade + 1) ∧
      s'.numDispatchesPerCascade = s.numDispatchesPerCascade ∧ s'.solverCs = s.solverCs ∧
      s'.blurCs = s.blurCs ∧ s'.initialConditionsFromTexCs = s.initialConditionsFromTexCs ∧
      e'.vars = e.vars := by
  obtain ⟨limit, c, hlim, hc, hcases⟩ := hinv.step hn h
  have hlo := hinv.cur_lo
  have hle := hinv.cur_le
  rcases hcases with ⟨_, _, rfl, rfl⟩ | ⟨_, htot, ⟨hs, he', hconf⟩ | ⟨hne, next, _, hs, he'⟩⟩
  · exact ⟨hinv, Or.inl rfl, rfl, rfl, rfl, rfl, rfl⟩
  · subst hs he'
    refine ⟨⟨hinv.len, hinv.cc_lo, hinv.cc_hi, ?_, ?_, htot, ?_⟩, Or.inl rfl, rfl, rfl, rfl, rfl,
      rfl⟩
    · show 0 ≤ s.curNumDispatches + n
      omega
    · show s.curNumDispatches + n ≤ s.totalNumDispatches + n
      omega
    · intro hne limit' hlim'
      have hlim'' : s.numDispatchesPerCascade.get s.currentCascade = .ok limit' := hlim'
      rw [hlim] at hlim''
      cases hlim''
      exact le_of_lt (hconf hne)
  · subst hs he'
    have h3 := hinv.cc_hi
    have h0 := hinv.cc_lo
    refine ⟨⟨hinv.len, ?_, ?_, ?_, ?_, htot, ?_⟩, Or.inr rfl, rfl, rfl, rfl, rfl, rfl⟩
    · show 0 ≤ s.currentCascade + 1
      omega
    · show s.currentCascade + 1 ≤ NUM_CASCADES - 1
      unfold NUM_CASCADES at *
      omega
    · show (0 : Int) ≤ 0
      omega
    · show 0 ≤ s.totalNumDispatches + n
      omega
    · intro _ limit' _
      show (0 : Int) ≤ limit'
      exact Int.ofNat_nonneg limit'

/-- A call on a state with the invariant returns unless an addition leaves
the range of `int`. -/
theorem CascadeSolver.Inv.progress {s : CascadeSolver} (hinv : s.Inv) (e : Env) (dt : F32)
    {n : Int} (hn : 0 ≤ n) (hsum : s.totalNumDispatches + n ≤ INT_MAX) :
    ∃ r, s.solveEquations e dt n = .ok r := by
  have h3 : s.currentCascade ≤ 3 := by have := hinv.cc_hi; unfold NUM_CASCADES at this; omega
  obtain ⟨limit, hlim⟩ := s.numDispatchesPerCascade.get_of_range hinv.cc_lo h3
  obtain ⟨c, hc⟩ := cascadeAt_of_length hinv.len hinv.cc_lo h3
  have hlo := hinv.cur_lo
  have hle := hinv.cur_le
  have hmin : INT_MIN ≤ 0 := by decide
  have hmax : (4 : Int) ≤ INT_MAX := by decide
  have h0 := hinv.cc_lo
  by_cases hearly : toU32 s.curNumDispatches > limit
  · have he : s.earlyReturn = .ok true := by
      rw [earlyReturn_of_limit hlim]; simp [hearly]
    exact ⟨_, solveEquations_of_earlyReturn he e dt n⟩
  · have he : s.earlyReturn = .ok false := by
      rw [earlyReturn_of_limit hlim]; simp [hearly]
    have hloop := s.forLoop_eq c e.vars (F32.mul dt c.dtMultiplier) n.toNat
      ⟨0, 0, s.simulationTime,
        e.cmds ++ [.set_real e.vars.simulation_dtVarId (F32.mul dt c.dtMultiplier)]⟩ hc rfl
    have hcur : addInt s.curNumDispatches n = .ok (s.curNumDispatches + n) :=
      addInt_of_range (by omega) (by omega)
    have htot : addInt s.totalNumDispatches n = .ok (s.totalNumDispatches + n) :=
      addInt_of_range (by omega) hsum
    unfold CascadeSolver.solveEquations
    simp only [he, hc, Env.emit, hloop, hcur, htot, hlim, bind, Except.bind, pure, Except.pure,
      Bool.false_eq_true, if_false]
    split_ifs with hge hlast
    · have hadd : addInt s.currentCascade 1 = .ok (s.currentCascade + 1) :=
        addInt_of_range (by omega) (by omega)
      have hlast' : s.currentCascade ≠ 3 := by
        intro h; apply hlast; simp [NUM_CASCADES, h]
      obtain ⟨next, hnext⟩ := cascadeAt_of_length (i := s.currentCascade + 1) hinv.len
        (by omega) (by omega)
      simp only [hadd]
      rw [switchToCascade_eq _ _ _ next c next (by exact hnext) (by exact hc) (by exact hnext)
        (by show s.currentCascade + 1 ≤ INT_MAX; omega)
        (by show INT_MIN ≤ s.currentCascade + 1; omega)]
      exact ⟨_, rfl⟩
    · exact ⟨_, rfl⟩
    · exact ⟨_, rfl⟩

/-! ## C1 -/

/-- C1: once `curNumDispatches` (non-negative) is above
`numDispatchesPerCascade[currentCascade]`, a call of
`CascadeSolver::solveEquations` with any `dt` and `num_dispatches` returns with
the solver and the environment (command stream and shader variables) exactly
as they were, and so does every later sequence of such calls. -/
theorem C1_solveEquations_stops (s : CascadeSolver) (e : Env) (limit : Nat)
    (hlim : s.numDispatchesPerCascade.get s.currentCascade = .ok limit)
    (h0 : 0 ≤ s.curNumDispatches) (hmax : s.curNumDispatches ≤ INT_MAX)
    (hgt : (limit : Int) < s.curNumDispatches) :
    (∀ (dt : F32) (num_dispatches : Int), s.solveEquations e dt num_dispatches = .ok (s, e)) ∧
    (∀ calls : List (F32 × Int), s.solveMany e calls = .ok (s, e)) := by
  have hu := toU32_of_nonneg h0 hmax
  have hearly : s.earlyReturn = .ok true := by
    rw [earlyReturn_of_limit hlim]
    have : limit < toU32 s.curNumDispatches := by omega
    simp [this]
  refine ⟨fun dt n => solveEquations_of_earlyReturn hearly e dt n, ?_⟩
  intro calls
  induction calls with
  | nil => rfl
  | cons c rest ih =>
    obtain ⟨dt, n⟩ := c
    simp only [CascadeSolver.solveMany, solveEquations_of_earlyReturn hearly e dt n]
    exact ih

/-- The state of C1 is reachable: with limits `0, 0, 0, 1`, three calls
without dispatches bring a new solver to the last cascade and a call with 3
dispatches leaves `curNumDispatches = 3 > 1`; from there every call and every
sequence of calls changes nothing. -/
theorem C1_solveEquations_stops_witness :
    ∃ s e,
      (Example.cascadeSolver ⟨0, 0, 0, 1⟩ >>= fun r =>
        r.1.solveMany r.2 [(.lit 1 2, 0), (.lit 1 2, 0), (.lit 1 2, 0), (.lit 1 2, 3)])
          = .ok (s, e) ∧
      s.numDispatchesPerCascade.get s.currentCascade = .ok 1 ∧
      s.curNumDispatches = 3 ∧
      ((∀ (dt : F32) (num_dispatches : Int), s.solveEquations e dt num_dispatches = .ok (s, e)) ∧
       (∀ calls : List (F32 × Int), s.solveMany e calls = .ok (s, e))) :=
  ⟨_, _, rfl, rfl, rfl,
    C1_solveEquations_stops _ _ 1 rfl (by decide) (by decide) (by decide)⟩

/-! ## C8 -/

theorem CascadeSolver.Inv.solveMany {s s' : CascadeSolver} {e e' : Env}
    {calls : List (F32 × Int)} (hinv : s.Inv) (hn : ∀ c ∈ calls, 0 ≤ c.2)
    (h : s.solveMany e calls = .ok (s', e')) :
    s'.Inv ∧ s'.numDispatchesPerCascade = s.numDispatchesPerCascade ∧ e'.vars = e.vars := by
  induction calls generalizing s e with
  | nil =>
    simp only [CascadeSolver.solveMany, Except.ok.injEq, Prod.mk.injEq] at h
    obtain ⟨rfl, rfl⟩ := h
    exact ⟨hinv, rfl, rfl⟩
  | cons c rest ih =>
    obtain ⟨dt, n⟩ := c
    have hn0 : 0 ≤ n := hn (dt, n) (List.mem_cons_self _ _)
    simp only [CascadeSolver.solveMany] at h
    cases hstep : s.solveEquations e dt n with
    | error f => simp [hstep] at h
    | ok r =>
      obtain ⟨s1, e1⟩ := r
      simp only [hstep] at h
      obtain ⟨hinv1, _, hnd, _, _, _, hv⟩ := hinv.preserved hn0 hstep
      obtain ⟨hinv', hnd', hv'⟩ := ih hinv1 (fun c hc => hn c (List.mem_cons_of_mem _ hc)) h
      exact ⟨hinv', hnd'.trans hnd, hv'.trans hv⟩

/-- C8: in every state a new `CascadeSolver` reaches through `solveEquations`
calls with `num_dispatches >= 0` (calls that return, that is, without `int`
overflow), `currentCascade` is within `0 .. NUM_CASCADES - 1`; when it is not
the last cascade, `curNumDispatches` is at most
`numDispatchesPerCascade[currentCascade]` and the opening test of
`solveEquations` is false; and a further call returns whenever
`totalNumDispatches + num_dispatches` fits an `int`, keeping `currentCascade`
or raising it by exactly one, never beyond `NUM_CASCADES - 1`. -/
theorem C8_silent_stop_confined_to_last_cascade (lookup : String → Bool → Int) (e0 : Env)
    (solver_shader_name : String) (tex_width tex_height : Nat)
    (num_dispatches_per_cascade : Array4 Nat) (spatial_step : F32)
    (s0 : CascadeSolver) (e1 : Env)
    (hnew : CascadeSolver.new lookup e0 solver_shader_name tex_width tex_height
        num_dispatches_per_cascade spatial_step = .ok (s0, e1))
    (calls : List (F32 × Int)) (s : CascadeSolver) (e : Env)
    (hn : ∀ c ∈ calls, 0 ≤ c.2) (hrun : s0.solveMany e1 calls = .ok (s, e)) :
    (0 ≤ s.currentCascade ∧ s.currentCascade ≤ NUM_CASCADES - 1) ∧
    (s.currentCascade ≠ NUM_CASCADES - 1 →
      ∃ limit : Nat, s.numDispatchesPerCascade.get s.currentCascade = .ok limit ∧
        s.curNumDispatches ≤ limit ∧ s.earlyReturn = .ok false) ∧
    (∀ (dt : F32) (n : Int), 0 ≤ n →
      (s.totalNumDispatches + n ≤ INT_MAX → ∃ r, s.solveEquations e dt n = .ok r) ∧
      (∀ s' e', s.solveEquations e dt n = .ok (s', e') →
        (s'.currentCascade = s.currentCascade ∨
          s'.currentCascade = s.currentCascade + 1) ∧
        s'.currentCascade ≤ NUM_CASCADES - 1)) := by
  obtain ⟨s0', e1', hnew', hlen, hcc, hcur, htot, _⟩ := CascadeSolver.new_spec lookup e0
    solver_shader_name tex_width tex_height num_dispatches_per_cascade spatial_step
  rw [hnew] at hnew'
  cases hnew'
  obtain ⟨hinv, _, _⟩ := (CascadeSolver.Inv.of_new hlen hcc hcur htot).solveMany hn hrun
  refine ⟨⟨hinv.cc_lo, hinv.cc_hi⟩, ?_, ?_⟩
  · intro hne
    have h3 : s.currentCascade ≤ 3 := by have := hinv.cc_hi; unfold NUM_CASCADES at this; omega
    obtain ⟨limit, hlim⟩ := s.numDispatchesPerCascade.get_of_range hinv.cc_lo h3
    have hle := hinv.confined hne limit hlim
    refine ⟨limit, hlim, hle, ?_⟩
    rw [earlyReturn_of_limit hlim]
    have hu := toU32_of_nonneg hinv.cur_lo (le_trans hinv.cur_le hinv.total_hi)
    have : ¬ toU32 s.curNumDispatches > limit := by omega
    simp [this]
  · intro dt n hn0
    refine ⟨fun hsum => hinv.progress e dt hn0 hsum, ?_⟩
    intro s' e' hstep
    obtain ⟨hinv', hcases, _⟩ := hinv.preserved hn0 hstep
    exact ⟨hcases, hinv'.cc_hi⟩

/-- C8 at a concrete solver with limits `2, 2, 2, 2`: the calls with 1 and 3
dispatches return and leave the solver in cascade 1 with
`curNumDispatches = 0`; there the opening test is false and a further call
with 5 dispatches returns. -/
theorem C8_silent_stop_confined_to_last_cascade_witness :
    ∃ s e,
      (Example.cascadeSolver ⟨2, 2, 2, 2⟩ >>= fun r =>
        r.1.solveMany r.2 [(.lit 1 2, 1), (.lit 1 2, 3)]) = .ok (s, e) ∧
      s.currentCascade = 1 ∧ s.curNumDispatches = 0 ∧
      (∃ limit : Nat, s.numDispatchesPerCascade.get s.currentCascade = .ok limit ∧
        s.curNumDispatches ≤ limit ∧ s.earlyReturn = .ok false) ∧
      ∃ r, s.solveEquations e (.lit 1 2) 5 = .ok r :=
  ⟨_, _, rfl, rfl, rfl,
    (C8_silent_stop_confined_to_last_cascade Example.lookup Example.env "solver" 64 32
      ⟨2, 2, 2, 2⟩ (.lit 1 0) _ _ rfl
      [(.lit 1 2, 1), (.lit 1 2, 3)] _ _ (by decide) rfl).2.1 (by decide),
    ((C8_silent_stop_confined_to_last_cascade Example.lookup Example.env "solver" 64 32
      ⟨2, 2, 2, 2⟩ (.lit 1 0) _ _ rfl
      [(.lit 1 2, 1), (.lit 1 2, 3)] _ _ (by decide) rfl).2.2 (.lit 1 2) 5 (by decide)).1
        (by decide)⟩

/-! ## C9 -/

theorem countDispatches_append (cs : ComputeShader) (xs ys : List Cmd) :
    countDispatches cs (xs ++ ys) = countDispatches cs xs + countDispatches cs ys := by
  induction xs with
  | nil => simp [countDispatches]
  | cons x xs ih =>
    cases x <;> simp [countDispatches, ih, Nat.add_assoc]

theorem Solver.count_passes (s : Solver) (vars : VarIds) (dt : F32) (hne : s.solverCs ≠ s.blurCs)
    (k : Nat) (st : LoopSt) :
    countDispatches s.solverCs ((s.pingPongPass vars dt)^[k] st).cmds =
        countDispatches s.solverCs st.cmds + k ∧
      countDispatches s.blurCs ((s.pingPongPass vars dt)^[k] st).cmds =
        countDispatches s.blurCs st.cmds + k := by
  induction k generalizing st with
  | zero => simp
  | succ k ih =>
    rw [Function.iterate_succ, Function.comp_apply]
    obtain ⟨h1, h2⟩ := ih (s.pingPongPass vars dt st)
    rw [h1, h2]
    simp only [Solver.pingPongPass, countDispatches_append, countDispatches, if_true,
      if_neg hne, if_neg (Ne.symm hne)]
    omega

theorem CascadeSolver.count_pass (s : CascadeSolver) (c : Cascade) (vars : VarIds) (dt : F32)
    (hne : s.solverCs ≠ s.blurCs) (k : Nat) (st : LoopSt) :
    countDispatches s.solverCs ((s.pingPongPass c vars dt)^[k] st).cmds =
        countDispatches s.solverCs st.cmds + k ∧
      countDispatches s.blurCs ((s.pingPongPass c vars dt)^[k] st).cmds =
        countDispatches s.blurCs st.cmds + k := by
  induction k generalizing st with
  | zero => simp
  | succ k ih =>
    rw [Function.iterate_succ, Function.comp_apply]
    obtain ⟨h1, h2⟩ := ih (s.pingPongPass c vars dt st)
    rw [h1, h2]
    simp only [CascadeSolver.pingPongPass, countDispatches_append, countDispatches, if_true,
      if_neg hne, if_neg (Ne.symm hne)]
    omega

/-- What a call of `Solver::solveEquations` that returns has done. -/
theorem Solver.solveEquations_eq {s s' : Solver} {e e' : Env} {dt : F32} {n : Int}
    (h : s.solveEquations e dt n = .ok (s', e')) :
    (INT_MIN ≤ s.totalNumDispatches + n ∧ s.totalNumDispatches + n ≤ INT_MAX) ∧
    s' = { s with
      simulationTime :=
        ((s.pingPongPass e.vars dt)^[n.toNat] ⟨0, 0, s.simulationTime, e.cmds⟩).simulationTime,
      totalNumDispatches := s.totalNumDispatches + n } ∧
    e' = { e with
      cmds := ((s.pingPongPass e.vars dt)^[n.toNat] ⟨0, 0, s.simulationTime, e.cmds⟩).cmds } := by
  unfold Solver.solveEquations at h
  simp only [s.forLoop_passes e.vars dt n.toNat ⟨0, 0, s.simulationTime, e.cmds⟩ rfl, bind,
    Except.bind, pure, Except.pure] at h
  cases htot : addInt s.totalNumDispatches n with
  | error f => simp [htot] at h
  | ok total =>
    obtain ⟨rfl, h1, h2⟩ := addInt_eq_ok htot
    simp only [htot] at h
    cases h
    exact ⟨⟨h1, h2⟩, rfl, rfl⟩

theorem Solver.solveEquations_ok (s : Solver) (e : Env) (dt : F32) {n : Int}
    (h1 : INT_MIN ≤ s.totalNumDispatches + n) (h2 : s.totalNumDispatches + n ≤ INT_MAX) :
    ∃ r, s.solveEquations e dt n = .ok r := by
  unfold Solver.solveEquations
  simp only [s.forLoop_passes e.vars dt n.toNat ⟨0, 0, s.simulationTime, e.cmds⟩ rfl, bind,
    Except.bind, pure, Except.pure, addInt_of_range h1 h2]
  exact ⟨_, rfl⟩

theorem Solver.solveMany_total {s s' : Solver} {e e' : Env} {calls : List (F32 × Int)}
    (hne : s.solverCs ≠ s.blurCs) (hn : ∀ c ∈ calls, 0 ≤ c.2)
    (h : s.solveMany e calls = .ok (s', e')) :
    s'.solverCs = s.solverCs ∧ s'.blurCs = s.blurCs ∧ e'.vars = e.vars ∧
    s'.totalNumDispatches = s.totalNumDispatches + (calls.map Prod.snd).sum ∧
    (countDispatches s.solverCs e'.cmds : Int) =
      countDispatches s.solverCs e.cmds + (calls.map Prod.snd).sum ∧
    (countDispatches s.blurCs e'.cmds : Int) =
      countDispatches s.blurCs e.cmds + (calls.map Prod.snd).sum := by
  induction calls generalizing s e with
  | nil =>
    simp only [Solver.solveMany, Except.ok.injEq, Prod.mk.injEq] at h
    obtain ⟨rfl, rfl⟩ := h
    simp
  | cons c rest ih =>
    obtain ⟨dt, n⟩ := c
    have hn0 : 0 ≤ n := hn (dt, n) (List.mem_cons_self _ _)
    simp only [Solver.solveMany] at h
    cases hstep : s.solveEquations e dt n with
    | error f => simp [hstep] at h
    | ok r =>
      obtain ⟨s1, e1⟩ := r
      simp only [hstep] at h
      obtain ⟨_, hs1, he1⟩ := Solver.solveEquations_eq hstep
      have hsc : s1.solverCs = s.solverCs := by rw [hs1]
      have hbc : s1.blurCs = s.blurCs := by rw [hs1]
      have htot : s1.totalNumDispatches = s.totalNumDispatches + n := by rw [hs1]
      have hv : e1.vars = e.vars := by rw [he1]
      have hcm : e1.cmds =
          ((s.pingPongPass e.vars dt)^[n.toNat] ⟨0, 0, s.simulationTime, e.cmds⟩).cmds := by
        rw [he1]
      obtain ⟨hc1, hc2⟩ := s.count_passes e.vars dt hne n.toNat ⟨0, 0, s.simulationTime, e.cmds⟩
      rw [← hcm] at hc1 hc2
      have hc1 : countDispatches s.solverCs e1.cmds =
          countDispatches s.solverCs e.cmds + n.toNat := hc1
      have hc2 : countDispatches s.blurCs e1.cmds =
          countDispatches s.blurCs e.cmds + n.toNat := hc2
      have hne1 : s1.solverCs ≠ s1.blurCs := by rw [hsc, hbc]; exact hne
      obtain ⟨a1, a2, a3, a4, a5, a6⟩ :=
        ih hne1 (fun c hc => hn c (List.mem_cons_of_mem _ hc)) h
      rw [hsc] at a5
      rw [hbc] at a6
      have hcast : ((n.toNat : Nat) : Int) = n := Int.toNat_of_nonneg hn0
      refine ⟨a1.trans hsc, a2.trans hbc, a3.trans hv, ?_, ?_, ?_⟩
      · simp only [List.map_cons, List.sum_cons]
        omega
      · simp only [List.map_cons, List.sum_cons]
        omega
      · simp only [List.map_cons, List.sum_cons]
        omega

theorem list_sum_nonneg {xs : List Int} (h : ∀ x ∈ xs, 0 ≤ x) : 0 ≤ xs.sum := by
  induction xs with
  | nil => simp
  | cons x xs ih =>
    have h1 := h x (List.mem_cons_self _ _)
    have h2 := ih (fun y hy => h y (List.mem_cons_of_mem _ hy))
    simp only [List.sum_cons]
    omega

theorem calls_sum_nonneg {calls : List (F32 × Int)} (hn : ∀ c ∈ calls, 0 ≤ c.2) :
    0 ≤ (calls.map Prod.snd).sum := by
  apply list_sum_nonneg
  intro x hx
  obtain ⟨c, hc, rfl⟩ := List.mem_map.mp hx
  exact hn c hc

theorem Solver.solveMany_returns (s : Solver) (e : Env) (calls : List (F32 × Int))
    (h0 : 0 ≤ s.totalNumDispatches) (hn : ∀ c ∈ calls, 0 ≤ c.2)
    (hsum : s.totalNumDispatches + (calls.map Prod.snd).sum ≤ INT_MAX) :
    ∃ r, s.solveMany e calls = .ok r := by
  induction calls generalizing s e with
  | nil => exact ⟨_, rfl⟩
  | cons c rest ih =>
    obtain ⟨dt, n⟩ := c
    have hn0 : 0 ≤ n := hn (dt, n) (List.mem_cons_self _ _)
    have hrest := calls_sum_nonneg (fun c hc => hn c (List.mem_cons_of_mem _ hc))
    simp only [List.map_cons, List.sum_cons] at hsum
    have hmin : INT_MIN ≤ 0 := by decide
    obtain ⟨⟨s1, e1⟩, hstep⟩ := s.solveEquations_ok e dt (n := n) (by omega) (by omega)
    obtain ⟨_, hs1, _⟩ := Solver.solveEquations_eq hstep
    have htot : s1.totalNumDispatches = s.totalNumDispatches + n := by rw [hs1]
    simp only [Solver.solveMany, hstep]
    exact ih s1 e1 (by omega) (fun c hc => hn c (List.mem_cons_of_mem _ hc)) (by omega)

theorem CascadeSolver.issued_cons (s s1 : CascadeSolver) (e e1 : Env) (dt : F32) (n : Int)
    (rest : List (F32 × Int)) (h : s.solveEquations e dt n = .ok (s1, e1)) :
    s.issued e ((dt, n) :: rest) = s.issuedByCall n + s1.issued e1 rest := by
  simp only [CascadeSolver.issued, h, CascadeSolver.issuedByCall]

theorem CascadeSolver.step_counts {s s1 : CascadeSolver} {e e1 : Env} {dt : F32} {n : Int}
    (hinv : s.Inv) (hne : s.solverCs ≠ s.blurCs)
    (hne2 : s.solverCs ≠ s.initialConditionsFromTexCs)
    (hne3 : s.blurCs ≠ s.initialConditionsFromTexCs) (hn : 0 ≤ n)
    (h : s.solveEquations e dt n = .ok (s1, e1)) :
    0 ≤ s.issuedByCall n ∧ s.issuedByCall n ≤ n ∧
    s1.totalNumDispatches = s.totalNumDispatches + s.issuedByCall n ∧
    (countDispatches s.solverCs e1.cmds : Int) =
      countDispatches s.solverCs e.cmds + s.issuedByCall n ∧
    (countDispatches s.blurCs e1.cmds : Int) =
      countDispatches s.blurCs e.cmds + s.issuedByCall n := by
  obtain ⟨limit, c, hlim, hc, hcases⟩ := hinv.step hn h
  have hcast : ((n.toNat : Nat) : Int) = n := Int.toNat_of_nonneg hn
  obtain ⟨hp1, hp2⟩ := s.count_pass c e.vars (F32.mul dt c.dtMultiplier) hne n.toNat
    ⟨0, 0, s.simulationTime,
      e.cmds ++ [.set_real e.vars.simulation_dtVarId (F32.mul dt c.dtMultiplier)]⟩
  have hl1 : countDispatches s.solverCs (s.loopResult e c dt n).cmds =
      countDispatches s.solverCs e.cmds + n.toNat := by
    rw [CascadeSolver.loopResult, hp1]
    simp [countDispatches_append, countDispatches]
  have hl2 : countDispatches s.blurCs (s.loopResult e c dt n).cmds =
      countDispatches s.blurCs e.cmds + n.toNat := by
    rw [CascadeSolver.loopResult, hp2]
    simp [countDispatches_append, countDispatches]
  rcases hcases with ⟨he, _, rfl, rfl⟩ | ⟨he, _, ⟨hs, he', _⟩ | ⟨_, next, _, hs, he'⟩⟩
  · simp [CascadeSolver.issuedByCall, he, hn]
  · have hi : s.issuedByCall n = n := by simp [CascadeSolver.issuedByCall, he]
    subst hs he'
    rw [hi]
    refine ⟨hn, le_refl _, rfl, ?_, ?_⟩
    · show (countDispatches s.solverCs (s.loopResult e c dt n).cmds : Int) = _
      omega
    · show (countDispatches s.blurCs (s.loopResult e c dt n).cmds : Int) = _
      omega
  · have hi : s.issuedByCall n = n := by simp [CascadeSolver.issuedByCall, he]
    subst hs he'
    rw [hi]
    have hs1 : countDispatches s.solverCs (switchCmds s e.vars next c next) = 0 := by
      simp [switchCmds, countDispatches, Ne.symm hne2]
    have hs2 : countDispatches s.blurCs (switchCmds s e.vars next c next) = 0 := by
      simp [switchCmds, countDispatches, Ne.symm hne3]
    refine ⟨hn, le_refl _, rfl, ?_, ?_⟩
    · show (countDispatches s.solverCs
        ((s.loopResult e c dt n).cmds ++ switchCmds s e.vars next c next) : Int) = _
      rw [countDispatches_append, hs1]
      omega
    · show (countDispatches s.blurCs
        ((s.loopResult e c dt n).cmds ++ switchCmds s e.vars next c next) : Int) = _
      rw [countDispatches_append, hs2]
      omega

theorem CascadeSolver.solveMany_counts {s s' : CascadeSolver} {e e' : Env}
    {calls : List (F32 × Int)} (hinv : s.Inv) (hne : s.solverCs ≠ s.blurCs)
    (hne2 : s.solverCs ≠ s.initialConditionsFromTexCs)
    (hne3 : s.blurCs ≠ s.initialConditionsFromTexCs) (hn : ∀ c ∈ calls, 0 ≤ c.2)
    (h : s.solveMany e calls = .ok (s', e')) :
    s'.solverCs = s.solverCs ∧ s'.blurCs = s.blurCs ∧
    s'.totalNumDispatches = s.totalNumDispatches + s.issued e calls ∧
    (countDispatches s.solverCs e'.cmds : Int) =
      countDispatches s.solverCs e.cmds + s.issued e calls ∧
    (countDispatches s.blurCs e'.cmds : Int) =
      countDispatches s.blurCs e.cmds + s.issued e calls := by
  induction calls generalizing s e with
  | nil =>
    simp only [CascadeSolver.solveMany, Except.ok.injEq, Prod.mk.injEq] at h
    obtain ⟨rfl, rfl⟩ := h
    simp [CascadeSolver.issued]
  | cons c rest ih =>
    obtain ⟨dt, n⟩ := c
    have hn0 : 0 ≤ n := hn (dt, n) (List.mem_cons_self _ _)
    simp only [CascadeSolver.solveMany] at h
    cases hstep : s.solveEquations e dt n with
    | error f => simp [hstep] at h
    | ok r =>
      obtain ⟨s1, e1⟩ := r
      simp only [hstep] at h
      obtain ⟨hinv1, _, _, hsc, hbc, hfc, _⟩ := hinv.preserved hn0 hstep
      obtain ⟨_, _, b1, b2, b3⟩ := CascadeSolver.step_counts hinv hne hne2 hne3 hn0 hstep
      obtain ⟨a1, a2, a3, a4, a5⟩ := ih hinv1 (by rw [hsc, hbc]; exact hne)
        (by rw [hsc, hfc]; exact hne2) (by rw [hbc, hfc]; exact hne3)
        (fun c hc => hn c (List.mem_cons_of_mem _ hc)) h
      rw [hsc] at a4
      rw [hbc] at a5
      rw [CascadeSolver.issued_cons s s1 e e1 dt n rest hstep]
      refine ⟨a1.trans hsc, a2.trans hbc, ?_, ?_, ?_⟩ <;> omega

theorem CascadeSolver.solveMany_ok {s : CascadeSolver} (hinv : s.Inv) (e : Env)
    (calls : List (F32 × Int)) (hn : ∀ c ∈ calls, 0 ≤ c.2)
    (hsum : s.totalNumDispatches + (calls.map Prod.snd).sum ≤ INT_MAX) :
    ∃ r, s.solveMany e calls = .ok r := by
  induction calls generalizing s e with
  | nil => exact ⟨_, rfl⟩
  | cons c rest ih =>
    obtain ⟨dt, n⟩ := c
    have hn0 : 0 ≤ n := hn (dt, n) (List.mem_cons_self _ _)
    have hrest := calls_sum_nonneg (fun c hc => hn c (List.mem_cons_of_mem _ hc))
    simp only [List.map_cons, List.sum_cons] at hsum
    obtain ⟨⟨s1, e1⟩, hstep⟩ := hinv.progress e dt hn0 (by omega)
    obtain ⟨hinv1, _⟩ := hinv.preserved hn0 hstep
    obtain ⟨limit, c, _, _, hcases⟩ := hinv.step hn0 hstep
    have htot : s1.totalNumDispatches ≤ s.totalNumDispatches + n := by
      rcases hcases with ⟨_, _, rfl, rfl⟩ | ⟨_, _, ⟨hs, _, _⟩ | ⟨_, next, _, hs, _⟩⟩
      · omega
      · rw [hs]
      · rw [hs]
    simp only [CascadeSolver.solveMany, hstep]
    exact ih hinv1 e1 (fun c hc => hn c (List.mem_cons_of_mem _ hc)) (by omega)

theorem Solver.new_shaders (lookup : String → Bool → Int) (e : Env) (name : String)
    (tw th : Nat) (ss : F32) :
    (Solver.new lookup e name tw th ss).1.solverCs ≠ (Solver.new lookup e name tw th ss).1.blurCs ∧
    (Solver.new lookup e name tw th ss).1.totalNumDispatches = 0 ∧
    (Solver.new lookup e name tw th ss).2.vars = resolveVars lookup ∧
    ∀ cs, countDispatches cs (Solver.new lookup e name tw th ss).2.cmds =
      countDispatches cs e.cmds := by
  refine ⟨?_, rfl, rfl, ?_⟩
  · intro h
    have h' : e.nextShader + 1 = e.nextShader + 1 + 1 := congrArg ComputeShader.handle h
    omega
  · intro cs
    show countDispatches cs (e.cmds ++ _) = _
    simp [countDispatches_append, countDispatches]

/-- C9: `getNumDispatches` is the number of solver-shader dispatches issued.
For a new `Solver` and for a new `CascadeSolver`, a sequence of
`solveEquations` calls with `num_dispatches >= 0` returns when the arguments
sum to at most `INT_MAX`, and whenever it returns (no `int` overflow)
`getNumDispatches()` is the number of `solverCs` dispatches added to the
command stream since construction and also the number of `blurCs` dispatches
added; for `Solver` it is the sum of all `num_dispatches`, for
`CascadeSolver` the sum over the calls that did not take the early return. -/
theorem C9_getNumDispatches_counts_issued_dispatches (lookup : String → Bool → Int) (e0 : Env)
    (solver_shader_name : String) (tex_width tex_height : Nat)
    (num_dispatches_per_cascade : Array4 Nat) (spatial_step : F32)
    (c0 : CascadeSolver) (e1 : Env)
    (hnew : CascadeSolver.new lookup e0 solver_shader_name tex_width tex_height
        num_dispatches_per_cascade spatial_step = .ok (c0, e1))
    (calls : List (F32 × Int)) (hn : ∀ c ∈ calls, 0 ≤ c.2) :
    (((calls.map Prod.snd).sum ≤ INT_MAX →
        ∃ r, (Solver.new lookup e0 solver_shader_name tex_width tex_height spatial_step).1.solveMany
          (Solver.new lookup e0 solver_shader_name tex_width tex_height spatial_step).2 calls
            = .ok r) ∧
      ∀ s e,
        (Solver.new lookup e0 solver_shader_name tex_width tex_height spatial_step).1.solveMany
          (Solver.new lookup e0 solver_shader_name tex_width tex_height spatial_step).2 calls
            = .ok (s, e) →
        s.getNumDispatches = (calls.map Prod.snd).sum ∧
        (countDispatches s.solverCs e.cmds : Int) =
          countDispatches s.solverCs e0.cmds + s.getNumDispatches ∧
        (countDispatches s.blurCs e.cmds : Int) =
          countDispatches s.blurCs e0.cmds + s.getNumDispatches) ∧
    (((calls.map Prod.snd).sum ≤ INT_MAX → ∃ r, c0.solveMany e1 calls = .ok r) ∧
      ∀ s e, c0.solveMany e1 calls = .ok (s, e) →
        s.getNumDispatches = c0.issued e1 calls ∧
        (countDispatches s.solverCs e.cmds : Int) =
          countDispatches s.solverCs e0.cmds + s.getNumDispatches ∧
        (countDispatches s.blurCs e.cmds : Int) =
          countDispatches s.blurCs e0.cmds + s.getNumDispatches) := by
  constructor
  · obtain ⟨hne, htot, _, hcnt⟩ := Solver.new_shaders lookup e0 solver_shader_name tex_width
      tex_height spatial_step
    constructor
    · intro hsum
      exact Solver.solveMany_returns _ _ calls (by rw [htot]) hn (by rw [htot]; omega)
    · intro s e hrun
      obtain ⟨a1, a2, _, a4, a5, a6⟩ := Solver.solveMany_total hne hn hrun
      rw [htot] at a4
      rw [hcnt] at a5 a6
      rw [← a1] at a5
      rw [← a2] at a6
      have hg : s.getNumDispatches = (calls.map Prod.snd).sum := by
        show s.totalNumDispatches = _
        omega
      refine ⟨hg, ?_, ?_⟩
      · rw [hg]; exact a5
      · rw [hg]; exact a6
  · obtain ⟨s0, e1', hnew', hlen, hcc, hcur, htot, _, _, hcm, hne, hne2, hne3⟩ :=
      CascadeSolver.new_spec lookup e0 solver_shader_name tex_width tex_height
        num_dispatches_per_cascade spatial_step
    rw [hnew] at hnew'
    cases hnew'
    have hinv := CascadeSolver.Inv.of_new hlen hcc hcur htot
    refine ⟨?_, ?_⟩
    · intro hsum
      exact CascadeSolver.solveMany_ok hinv e1 calls hn (by rw [htot]; omega)
    · intro s e hrun
      obtain ⟨a1, a2, a3, a4, a5⟩ := CascadeSolver.solveMany_counts hinv hne hne2 hne3 hn hrun
      rw [htot] at a3
      rw [hcm] at a4 a5
      rw [← a1] at a4
      rw [← a2] at a5
      have hg : s.getNumDispatches = c0.issued e1 calls := by
        show s.totalNumDispatches = _
        omega
      refine ⟨hg, ?_, ?_⟩
      · rw [hg]; exact a4
      · rw [hg]; exact a5

/-- C9 at concrete solvers. The `Solver` called with 2, 0 and 1 dispatches
reports 3. The `CascadeSolver` with limits `0, 0, 0, 0` called with 0, 0, 0, 2
and 5 dispatches reports 2: the last call takes the early return and its 5
dispatches are not issued. -/
theorem C9_getNumDispatches_counts_issued_dispatches_witness :
    (∃ s e,
      Example.solver.1.solveMany Example.solver.2
        [(.lit 1 2, 2), (.lit 1 2, 0), (.lit 1 2, 1)] = .ok (s, e) ∧
      s.getNumDispatches = 3 ∧
      (countDispatches s.solverCs e.cmds : Int) = 0 + s.getNumDispatches) ∧
    (∃ c0 e1 s e,
      Example.cascadeSolver ⟨0, 0, 0, 0⟩ = .ok (c0, e1) ∧
      c0.solveMany e1 [(.lit 1 2, 0), (.lit 1 2, 0), (.lit 1 2, 0), (.lit 1 2, 2), (.lit 1 2, 5)]
        = .ok (s, e) ∧
      s.getNumDispatches = 2 ∧
      (countDispatches s.solverCs e.cmds : Int) = 0 + s.getNumDispatches) :=
  ⟨⟨_, _, rfl, rfl,
    (((C9_getNumDispatches_counts_issued_dispatches Example.lookup Example.env "solver" 64 32
      ⟨0, 0, 0, 0⟩ (.lit 1 0) _ _ rfl
      [(.lit 1 2, 2), (.lit 1 2, 0), (.lit 1 2, 1)] (by decide)).1.2 _ _ rfl).2.1)⟩,
   ⟨_, _, _, _, rfl, rfl, rfl,
    (((C9_getNumDispatches_counts_issued_dispatches Example.lookup Example.env "solver" 64 32
      ⟨0, 0, 0, 0⟩ (.lit 1 0) _ _ rfl
      [(.lit 1 2, 0), (.lit 1 2, 0), (.lit 1 2, 0), (.lit 1 2, 2), (.lit 1 2, 5)]
      (by decide)).2.2 _ _ rfl).2.1)⟩⟩

/-! ## C10 -/

theorem toI32_of_lt {n : Nat} (h : n < 2147483648) : toI32 n = (n : Int) := by
  unfold toI32
  have h1 : n % 4294967296 = n := Nat.mod_eq_of_lt (by omega)
  rw [h1, if_pos h]

theorem cascadeAt_ok {cascades : List Cascade} {i : Int} {c : Cascade}
    (h : cascadeAt cascades i = .ok c) : 0 ≤ i ∧ cascades[i.toNat]? = some c := by
  unfold cascadeAt at h
  split_ifs at h with h0
  refine ⟨h0, ?_⟩
  rw [List.get?_eq_getElem?] at h
  cases hget : cascades[i.toNat]? with
  | none => simp [hget] at h
  | some c' =>
    simp only [hget, Except.ok.injEq] at h
    rw [h]

theorem CascadeSolver.new_texSizes (lookup : String → Bool → Int) (e : Env) (name : String)
    (tw th : Nat) (nd : Array4 Nat) (ss : F32) :
    ∃ s e', CascadeSolver.new lookup e name tw th nd ss = .ok (s, e') ∧
      s.cascades.map Cascade.texSize =
        [⟨toI32 (tw / 2 ^ 3), toI32 (th / 2 ^ 3)⟩, ⟨toI32 (tw / 2 ^ 2), toI32 (th / 2 ^ 2)⟩,
         ⟨toI32 (tw / 2 ^ 1), toI32 (th / 2 ^ 1)⟩, ⟨toI32 (tw / 2 ^ 0), toI32 (th / 2 ^ 0)⟩] :=
  ⟨_, _, rfl, rfl⟩

theorem texSize_of_cascadeAt {cascades : List Cascade} {tw th : Nat}
    (hw : tw < 2 ^ 31) (hh : th < 2 ^ 31)
    (hsz : cascades.map Cascade.texSize =
        [⟨toI32 (tw / 2 ^ 3), toI32 (th / 2 ^ 3)⟩, ⟨toI32 (tw / 2 ^ 2), toI32 (th / 2 ^ 2)⟩,
         ⟨toI32 (tw / 2 ^ 1), toI32 (th / 2 ^ 1)⟩, ⟨toI32 (tw / 2 ^ 0), toI32 (th / 2 ^ 0)⟩])
    {i : Int} {c : Cascade} (h : cascadeAt cascades i = .ok c) :
    (0 ≤ i ∧ i < NUM_CASCADES) ∧
    c.texSize = ⟨((tw / 2 ^ (NUM_CASCADES - 1 - i).toNat : Nat) : Int),
                 ((th / 2 ^ (NUM_CASCADES - 1 - i).toNat : Nat) : Int)⟩ := by
  obtain ⟨h0, hget⟩ := cascadeAt_ok h
  have hmap : (cascades.map Cascade.texSize)[i.toNat]? = some c.texSize := by
    rw [List.getElem?_map, hget]; rfl
  rw [hsz] at hmap
  have hw8 : tw / 2 ^ 3 < 2147483648 := by omega
  have hw4 : tw / 2 ^ 2 < 2147483648 := by omega
  have hw2 : tw / 2 ^ 1 < 2147483648 := by omega
  have hw1 : tw / 2 ^ 0 < 2147483648 := by omega
  have hh8 : th / 2 ^ 3 < 2147483648 := by omega
  have hh4 : th / 2 ^ 2 < 2147483648 := by omega
  have hh2 : th / 2 ^ 1 < 2147483648 := by omega
  have hh1 : th / 2 ^ 0 < 2147483648 := by omega
  rw [toI32_of_lt hw8, toI32_of_lt hw4, toI32_of_lt hw2, toI32_of_lt hw1, toI32_of_lt hh8,
    toI32_of_lt hh4, toI32_of_lt hh2, toI32_of_lt hh1] at hmap
  obtain ⟨k, hk⟩ : ∃ k : Nat, i = k := ⟨i.toNat, (Int.toNat_of_nonneg h0).symm⟩
  subst hk
  simp only [Int.toNat_ofNat] at hmap
  have hk4 : k < 4 := by
    by_contra hge
    have : 4 ≤ k := by omega
    rw [List.getElem?_eq_none (by simpa using this)] at hmap
    cases hmap
  unfold NUM_CASCADES
  interval_cases k
  · simp only [List.getElem?_cons_zero, Option.some.injEq] at hmap
    exact ⟨by decide, hmap.symm⟩
  · simp only [List.getElem?_cons_succ, List.getElem?_cons_zero, Option.some.injEq] at hmap
    exact ⟨by decide, hmap.symm⟩
  · simp only [List.getElem?_cons_succ, List.getElem?_cons_zero, Option.some.injEq] at hmap
    exact ⟨by decide, hmap.symm⟩
  · simp only [List.getElem?_cons_succ, List.getElem?_cons_zero, Option.some.injEq] at hmap
    exact ⟨by decide, hmap.symm⟩

/-- C10: for `tex_width` and `tex_height` below `2^31` the constructor of
`CascadeSolver` returns, and the solver it returns has, for every
`0 <= i < NUM_CASCADES`, a cascade `i` with the texture size
`(tex_width / 2^(NUM_CASCADES-1-i), tex_height / 2^(NUM_CASCADES-1-i))`,
rounded down; the last cascade has exactly `(tex_width, tex_height)`; and
both components of `texSize` are non-decreasing in the cascade index. -/
theorem C10_cascade_resolution_pyramid (lookup : String → Bool → Int) (e : Env)
    (solver_shader_name : String) (tex_width tex_height : Nat)
    (num_dispatches_per_cascade : Array4 Nat) (spatial_step : F32)
    (hw : tex_width < 2 ^ 31) (hh : tex_height < 2 ^ 31) :
    (∃ r, CascadeSolver.new lookup e solver_shader_name tex_width tex_height
        num_dispatches_per_cascade spatial_step = .ok r) ∧
    ∀ s e', CascadeSolver.new lookup e solver_shader_name tex_width tex_height
        num_dispatches_per_cascade spatial_step = .ok (s, e') →
      (∀ i : Int, 0 ≤ i → i < NUM_CASCADES →
        ∃ c, cascadeAt s.cascades i = .ok c ∧
          c.texSize = ⟨((tex_width / 2 ^ (NUM_CASCADES - 1 - i).toNat : Nat) : Int),
                       ((tex_height / 2 ^ (NUM_CASCADES - 1 - i).toNat : Nat) : Int)⟩) ∧
      (∃ c, cascadeAt s.cascades (NUM_CASCADES - 1) = .ok c ∧
          c.texSize = ⟨(tex_width : Int), (tex_height : Int)⟩) ∧
      (∀ (i j : Int) (ci cj : Cascade), i ≤ j →
        cascadeAt s.cascades i = .ok ci → cascadeAt s.cascades j = .ok cj →
        ci.texSize.x ≤ cj.texSize.x ∧ ci.texSize.y ≤ cj.texSize.y) := by
  obtain ⟨s0, e0', hnew, hsz⟩ := CascadeSolver.new_texSizes lookup e solver_shader_name tex_width
    tex_height num_dispatches_per_cascade spatial_step
  refine ⟨⟨_, hnew⟩, ?_⟩
  intro s e' hnew'
  rw [hnew] at hnew'
  cases hnew'
  have hlen : s0.cascades.length = 4 := by
    have := congrArg List.length hsz
    simpa using this
  refine ⟨?_, ?_, ?_⟩
  · intro i h0 h4
    obtain ⟨c, hc⟩ := cascadeAt_of_length hlen h0 (by unfold NUM_CASCADES at h4; omega)
    exact ⟨c, hc, (texSize_of_cascadeAt hw hh hsz hc).2⟩
  · obtain ⟨c, hc⟩ := cascadeAt_of_length (i := NUM_CASCADES - 1) hlen (by decide) (by decide)
    refine ⟨c, hc, ?_⟩
    rw [(texSize_of_cascadeAt hw hh hsz hc).2]
    simp [NUM_CASCADES]
  · intro i j ci cj hij hi hj
    obtain ⟨⟨hi0, hi4⟩, hci⟩ := texSize_of_cascadeAt hw hh hsz hi
    obtain ⟨⟨hj0, hj4⟩, hcj⟩ := texSize_of_cascadeAt hw hh hsz hj
    rw [hci, hcj]
    unfold NUM_CASCADES at *
    have hpow : 2 ^ (4 - 1 - j).toNat ≤ 2 ^ (4 - 1 - i).toNat :=
      Nat.pow_le_pow_right (by decide) (by omega)
    have hpos : 0 < 2 ^ (4 - 1 - j).toNat := Nat.pow_pos (by decide)
    exact ⟨Int.ofNat_le.mpr (Nat.div_le_div_left hpow hpos),
      Int.ofNat_le.mpr (Nat.div_le_div_left hpow hpos)⟩

/-- C10 at `tex_width = 100`, `tex_height = 36`: cascade 1 has the size
`(100 / 4, 36 / 4) = (25, 9)` and the last cascade has `(100, 36)`. -/
theorem C10_cascade_resolution_pyramid_witness :
    ∃ s e',
      CascadeSolver.new Example.lookup Example.env "solver" 100 36 ⟨1, 1, 1, 1⟩ (.lit 1 0)
        = .ok (s, e') ∧
      (∃ c, cascadeAt s.cascades 1 = .ok c ∧ c.texSize = ⟨25, 9⟩) ∧
      (∃ c, cascadeAt s.cascades (NUM_CASCADES - 1) = .ok c ∧ c.texSize = ⟨100, 36⟩) :=
  ⟨_, _, rfl,
    ((C10_cascade_resolution_pyramid Example.lookup Example.env "solver" 100 36 ⟨1, 1, 1, 1⟩
      (.lit 1 0) (by decide) (by decide)).2 _ _ rfl).1 1 (by decide) (by decide),
    ((C10_cascade_resolution_pyramid Example.lookup Example.env "solver" 100 36 ⟨1, 1, 1, 1⟩
      (.lit 1 0) (by decide) (by decide)).2 _ _ rfl).2.1⟩

/-! ## C2 -/

theorem earlyReturn_ok {s : CascadeSolver} {b : Bool} (h : s.earlyReturn = .ok b) :
    ∃ limit : Nat, s.numDispatchesPerCascade.get s.currentCascade = .ok limit ∧
      b = decide (toU32 s.curNumDispatches > limit) := by
  unfold CascadeSolver.earlyReturn at h
  cases hlim : s.numDispatchesPerCascade.get s.currentCascade with
  | error f => simp [hlim, bind, Except.bind] at h
  | ok limit =>
    simp only [hlim, bind, Except.bind, pure, Except.pure, Except.ok.injEq] at h
    exact ⟨limit, rfl, h.symm⟩

/-- A `solveEquations` call that returns either took the early return, or
found its limit and its cascade and passed the opening test. -/
theorem solveEquations_ok_cases {s s' : CascadeSolver} {e e' : Env} {dt : F32} {n : Int}
    (h : s.solveEquations e dt n = .ok (s', e')) :
    (s.earlyReturn = .ok true ∧ s' = s ∧ e' = e) ∨
    (s.earlyReturn = .ok false ∧ ∃ (limit : Nat) (c : Cascade),
      s.numDispatchesPerCascade.get s.currentCascade = .ok limit ∧
      cascadeAt s.cascades s.currentCascade = .ok c ∧
      toU32 s.curNumDispatches ≤ limit) := by
  cases hearly : s.earlyReturn with
  | error f =>
    simp [CascadeSolver.solveEquations, hearly, bind, Except.bind] at h
  | ok b =>
    cases b with
    | true =>
      rw [solveEquations_of_earlyReturn hearly] at h
      cases h
      exact Or.inl ⟨rfl, rfl, rfl⟩
    | false =>
      right
      obtain ⟨limit, hlim, hb⟩ := earlyReturn_ok hearly
      have hnot : toU32 s.curNumDispatches ≤ limit := by
        by_contra hgt
        have : toU32 s.curNumDispatches > limit := by omega
        simp [this] at hb
      cases hc : cascadeAt s.cascades s.currentCascade with
      | error f =>
        simp [CascadeSolver.solveEquations, hearly, hc, bind, Except.bind, pure, Except.pure] at h
      | ok c => exact ⟨rfl, limit, c, hlim, rfl, hnot⟩

theorem fillNextCascadeInitialConditions_frame {s s' : CascadeSolver} {e e' : Env}
    (h : s.fillNextCascadeInitialConditions e = .ok (s', e')) : s' = s ∧ e'.vars = e.vars := by
  unfold CascadeSolver.fillNextCascadeInitialConditions at h
  cases hc : cascadeAt s.cascades s.currentCascade with
  | error f => simp [hc, bind, Except.bind] at h
  | ok c =>
    cases hadd : addInt s.currentCascade 1 with
    | error f => simp [hc, hadd, bind, Except.bind] at h
    | ok k =>
      cases hn : cascadeAt s.cascades k with
      | error f => simp [hc, hadd, hn, bind, Except.bind] at h
      | ok next =>
        simp only [hc, hadd, hn, bind, Except.bind, pure, Except.pure] at h
        cases h
        exact ⟨rfl, rfl⟩

theorem switchToCascade_frame {s s' : CascadeSolver} {e e' : Env} {cascade : Int}
    (h : s.switchToCascade e cascade = .ok (s', e')) : e'.vars = e.vars := by
  unfold CascadeSolver.switchToCascade at h
  cases hc : cascadeAt s.cascades cascade with
  | error f => simp [hc, bind, Except.bind] at h
  | ok c =>
    simp only [hc, bind, Except.bind] at h
    split at h
    · cases h
    · rename_i r hfill
      obtain ⟨s1, e1⟩ := r
      obtain ⟨_, hv⟩ := fillNextCascadeInitialConditions_frame hfill
      simp only [pure, Except.pure] at h
      cases h
      exact hv

theorem fillInitialConditions_frame {s s' : CascadeSolver} {e e' : Env} {d : F32} {v : Point2}
    (h : s.fillInitialConditions e d v = .ok (s', e')) : e'.vars = e.vars := by
  unfold CascadeSolver.fillInitialConditions at h
  simp only [bind, Except.bind] at h
  split at h
  · cases h
  · rename_i r hsw
    obtain ⟨s1, e1⟩ := r
    have hv := switchToCascade_frame hsw
    simp only at h
    split at h
    · cases h
    · simp only [pure, Except.pure] at h
      cases h
      exact hv

theorem solveEquations_frame {s s' : CascadeSolver} {e e' : Env} {dt : F32} {n : Int}
    (h : s.solveEquations e dt n = .ok (s', e')) : e'.vars = e.vars := by
  rcases solveEquations_ok_cases h with ⟨_, _, he⟩ | ⟨_, limit, c, hlim, hc, hnot⟩
  · rw [he]
  · obtain ⟨_, _, hcases⟩ := solveEquations_run hlim hc hnot h
    rcases hcases with ⟨_, _, he⟩ | ⟨_, _, next, _, _, he⟩ <;> rw [he]

theorem showResult_frame {s s' : CascadeSolver} {e e' : Env} {p : PlotType}
    (h : s.showResult e p = .ok (s', e')) : e'.vars = e.vars := by
  unfold CascadeSolver.showResult at h
  cases hc : cascadeAt s.cascades s.currentCascade with
  | error f => simp [hc, bind, Except.bind] at h
  | ok c =>
    simp only [hc, bind, Except.bind, pure, Except.pure] at h
    cases h
    rfl

/-- C6: the shader-variable identifiers are resolved at construction and
nowhere else. The constructors of `Solver` and of `CascadeSolver` leave each
of the twelve identifiers of `VARS_LIST` equal to
`get_shader_variable_id` of its own name (with `true` as second argument), and
`fillInitialConditions`, `solveEquations`, `showResult`, `switchToCascade` and
`fillNextCascadeInitialConditions` of either class return with all twelve
unchanged. The getters take no environment and cannot change them. -/
theorem C6_var_ids_resolved_once_at_construction (lookup : String → Bool → Int) (e : Env) :
    (∀ (name : String) (tw th : Nat) (ss : F32),
      (Solver.new lookup e name tw th ss).2.vars =
        { velocity_density_texVarId := lookup "velocity_density_tex" true
          next_velocity_density_texVarId := lookup "next_velocity_density_tex" true
          tex_sizeVarId := lookup "tex_size" true
          plot_typeVarId := lookup "plot_type" true
          plot_texVarId := lookup "plot_tex" true
          simulation_dtVarId := lookup "simulation_dt" true
          simulation_dxVarId := lookup "simulation_dx" true
          simulation_timeVarId := lookup "simulation_time" true
          standard_densityVarId := lookup "standard_density" true
          standard_velocityVarId := lookup "standard_velocity" true
          initial_velocity_density_texVarId := lookup "initial_velocity_density_tex" true
          euler_implicit_modeVarId := lookup "euler_implicit_mode" true }) ∧
    (∀ (name : String) (tw th : Nat) (nd : Array4 Nat) (ss : F32),
      ∃ s e', CascadeSolver.new lookup e name tw th nd ss = .ok (s, e') ∧
        e'.vars =
          { velocity_density_texVarId := lookup "velocity_density_tex" true
            next_velocity_density_texVarId := lookup "next_velocity_density_tex" true
            tex_sizeVarId := lookup "tex_size" true
            plot_typeVarId := lookup "plot_type" true
            plot_texVarId := lookup "plot_tex" true
            simulation_dtVarId := lookup "simulation_dt" true
            simulation_dxVarId := lookup "simulation_dx" true
            simulation_timeVarId := lookup "simulation_time" true
            standard_densityVarId := lookup "standard_density" true
            standard_velocityVarId := lookup "standard_velocity" true
            initial_velocity_density_texVarId := lookup "initial_velocity_density_tex" true
            euler_implicit_modeVarId := lookup "euler_implicit_mode" true }) ∧
    (∀ (s : Solver),
      (∀ d v, (s.fillInitialConditions e d v).2.vars = e.vars) ∧
      (∀ dt n s' e', s.solveEquations e dt n = .ok (s', e') → e'.vars = e.vars) ∧
      (∀ p, (s.showResult e p).2.vars = e.vars)) ∧
    (∀ (s s' : CascadeSolver) (e' : Env),
      (∀ d v, s.fillInitialConditions e d v = .ok (s', e') → e'.vars = e.vars) ∧
      (∀ dt n, s.solveEquations e dt n = .ok (s', e') → e'.vars = e.vars) ∧
      (∀ p, s.showResult e p = .ok (s', e') → e'.vars = e.vars) ∧
      (∀ cascade, s.switchToCascade e cascade = .ok (s', e') → e'.vars = e.vars) ∧
      (s.fillNextCascadeInitialConditions e = .ok (s', e') → e'.vars = e.vars)) := by
  refine ⟨fun _ _ _ _ => rfl, ?_, ?_, ?_⟩
  · intro name tw th nd ss
    exact ⟨_, _, rfl, rfl⟩
  · intro s
    refine ⟨fun _ _ => rfl, ?_, fun _ => rfl⟩
    intro dt n s' e' h
    obtain ⟨_, _, he⟩ := Solver.solveEquations_eq h
    rw [he]
  · intro s s' e'
    exact ⟨fun _ _ h => fillInitialConditions_frame h, fun _ _ h => solveEquations_frame h,
      fun _ h => showResult_frame h, fun _ h => switchToCascade_frame h,
      fun h => (fillNextCascadeInitialConditions_frame h).2⟩

/-- C6 at a concrete lookup (the identifier of a variable is the length of
its name): after construction `plot_texVarId` is 8 and
`euler_implicit_modeVarId` is 19, and a `solveEquations` call on the new
`Solver` returns with the identifiers as the constructor left them. -/
theorem C6_var_ids_resolved_once_at_construction_witness :
    Example.solver.2.vars.plot_texVarId = 8 ∧
    Example.solver.2.vars.euler_implicit_modeVarId = 19 ∧
    ∃ s' e',
      Example.solver.1.solveEquations Example.solver.2 (.lit 1 2) 1 = .ok (s', e') ∧
      e'.vars = Example.solver.2.vars :=
  ⟨congrArg VarIds.plot_texVarId
      ((C6_var_ids_resolved_once_at_construction Example.lookup Example.env).1 "solver" 64 32
        (.lit 1 0)),
    congrArg VarIds.euler_implicit_modeVarId
      ((C6_var_ids_resolved_once_at_construction Example.lookup Example.env).1 "solver" 64 32
        (.lit 1 0)),
    _, _, rfl,
    ((C6_var_ids_resolved_once_at_construction Example.lookup Example.solver.2).2.2.1
      Example.solver.1).2.1 (.lit 1 2) 1 _ _ rfl⟩

/-! ## C7 -/

/-- C7: on a new `CascadeSolver` with one dispatch per cascade, three
`solveEquations(dt, 1)` calls return and leave `currentCascade` at
`NUM_CASCADES - 1`, which is in range; `showResult` then returns, but
`fillInitialConditions` reads `cascades[currentCascade + 1]`, that is
`cascades[4]`, outside the four cascades. -/
theorem C7_fillInitialConditions_reads_past_last_cascade :
    ∃ s e,
      (Example.cascadeSolver ⟨1, 1, 1, 1⟩ >>= fun r =>
        r.1.solveMany r.2 [(.lit 1 2, 1), (.lit 1 2, 1), (.lit 1 2, 1)]) = .ok (s, e) ∧
      s.cascades.length = 4 ∧ s.currentCascade = NUM_CASCADES - 1 ∧
      (∃ r, s.showResult e ⟨0⟩ = .ok r) ∧
      s.fillInitialConditions e (.lit 1 0) ⟨.lit 0 1, .lit 0 1⟩ =
        .error (.indexOutOfBounds 4) :=
  ⟨_, _, rfl, rfl, rfl, ⟨_, rfl⟩, rfl⟩

end cfd

namespace dabfg

/-! ## C4 -/

/-- C4: with a history that requires the contents to be preserved,
`get_activation_from_usage` returns no activation action, so neither clear
nor discard, for every usage and resource type; the same holds of the inline
overload applied to an API-level usage. -/
theorem C4_must_preserve_never_clears_or_discards {Usage Stage Rest ResourceType : Type}
    (res_type : ResourceType) :
    (∀ usage : intermediate.ResourceUsage Access Usage Stage,
      intermediate.get_activation_from_usage .mustPreserve usage res_type = none ∧
      intermediate.get_activation_from_usage .mustPreserve usage res_type ≠ some .clear ∧
      intermediate.get_activation_from_usage .mustPreserve usage res_type ≠ some .discard) ∧
    (∀ usage : ResourceUsage Access Usage Stage Rest,
      get_activation_from_usage intermediate.get_activation_from_usage .mustPreserve usage
        res_type = none) := by
  refine ⟨fun usage => ⟨rfl, ?_, ?_⟩, fun usage => rfl⟩
  · simp [intermediate.get_activation_from_usage]
  · simp [intermediate.get_activation_from_usage]

/-! ## C5 -/

/-- C5: the inline overload of `get_activation_from_usage` returns exactly
what the intermediate-level overload returns on the intermediate usage built
from `usage.access`, `usage.type` and `usage.stage`; hence two API-level usages
that agree on access, type and stage get the same activation action for the
same history and resource type. -/
theorem C5_inline_overload_forwards {History Access Usage Stage Rest ResourceType Action : Type}
    (get_activation_from_usage_ir :
      History → intermediate.ResourceUsage Access Usage Stage → ResourceType → Option Action)
    (history : History) (res_type : ResourceType)
    (usage : ResourceUsage Access Usage Stage Rest) :
    get_activation_from_usage get_activation_from_usage_ir history usage res_type =
      get_activation_from_usage_ir history
        { access := usage.access, type := usage.type, stage := usage.stage } res_type ∧
    ∀ other : ResourceUsage Access Usage Stage Rest,
      other.access = usage.access → other.type = usage.type → other.stage = usage.stage →
      get_activation_from_usage get_activation_from_usage_ir history other res_type =
        get_activation_from_usage get_activation_from_usage_ir history usage res_type := by
  refine ⟨rfl, ?_⟩
  intro other ha ht hs
  simp only [get_activation_from_usage, ha, ht, hs]

end dabfg
